import Mathlib

/-!
Shallow embedding of the `loxxx` tree-walking Lox interpreter
(`src/loxxx/*.py`): scanner token model, AST, recursive-descent
parsing, lexical resolution and the tree-walking evaluator, together
with theorems settling the specification claims.

Numbers (`float` in the host) are modelled as exact rationals; every
theorem below only touches values on which IEEE-754 doubles and exact
rationals agree (small integers). Host dictionaries keyed by frozen
dataclasses compare keys structurally, which is mirrored by the
structural equality functions below.
-/

namespace Loxxx

/-! ### Tokens (src/loxxx/scanner.py) -/

inductive TokenType where
  | leftParen | rightParen | leftBrace | rightBrace | comma | dot
  | minus | plus | semicolon | slash | star
  | bang | bangEqual | equal | equalEqual
  | greater | greaterEqual | less | lessEqual
  | identifier | stringTok | number
  | andKw | classKw | elseKw | falseKw | funKw | forKw | ifKw | nilKw
  | orKw | printKw | returnKw | superKw | thisKw | trueKw | varKw | whileKw
  | eof
  deriving DecidableEq, Repr

/-- Literal payloads carried by tokens and `Literal` nodes
(`float | str | bool | None` in the host). -/
inductive LitVal where
  | nil
  | bool (b : Bool)
  | num (q : Rat)
  | str (s : String)
  deriving DecidableEq, Repr

structure Token where
  type : TokenType
  lexeme : String
  literal : Option LitVal
  line_num : Nat
  deriving DecidableEq, Repr

/-! ### AST (src/loxxx/expressions/expressions.py, src/loxxx/statements/statements.py)

The repository carries the AST in two module variants; the package
variant is the superset (it adds `Get`, `Set`, `This` and the `Class`
statement), so the embedding uses that one.  `variable` being a Lean
keyword, the `Variable` node is called `var`. -/

mutual

inductive Expr where
  | binary (left : Expr) (op : Token) (right : Expr)
  | call (callee : Expr) (paren : Token) (args : List Expr)
  | get (obj : Expr) (name : Token)
  | logical (left : Expr) (op : Token) (right : Expr)
  | set (obj : Expr) (name : Token) (value : Expr)
  | this (keyword : Token)
  | unary (op : Token) (right : Expr)
  | grouping (inner : Expr)
  | literal (v : LitVal)
  | var (name : Token)
  | assign (name : Token) (value : Expr)
  | funDecl (d : FunctionDeclaration)

inductive FunctionDeclaration where
  | mk (name : Option Token) (params : List Token) (body : List Stmt)

inductive Stmt where
  | block (stmts : List Stmt)
  | classStmt (name : Token) (methods : List FunctionDeclaration)
      (staticMethods : List FunctionDeclaration)
  | exprStmt (e : Expr)
  | ifStmt (cond : Expr) (thenBranch : Stmt) (elseBranch : Option Stmt)
  | printStmt (e : Expr)
  | returnStmt (keyword : Token) (e : Option Expr)
  | varDecl (name : Token) (initializer : Option Expr)
  | whileStmt (cond : Expr) (body : Stmt)

end

def FunctionDeclaration.name : FunctionDeclaration → Option Token
  | .mk n _ _ => n

def FunctionDeclaration.params : FunctionDeclaration → List Token
  | .mk _ p _ => p

def FunctionDeclaration.body : FunctionDeclaration → List Stmt
  | .mk _ _ b => b

/-! Structural equality on AST nodes.  The host's frozen dataclasses
derive structural `__eq__`/`__hash__`, so the locals side-table
(`Interpreter.locals`, a dict keyed by expression nodes) compares keys
structurally; these functions mirror that.  They take the ambient fuel
bound like every recursive walk in this embedding; any fuel above the
node depth computes exact structural equality. -/

mutual

def exprBeq : Nat → Expr → Expr → Bool
  | 0, _, _ => false
  | fuel + 1, e1, e2 =>
    match e1, e2 with
    | .binary l1 o1 r1, .binary l2 o2 r2 =>
        exprBeq fuel l1 l2 && o1 == o2 && exprBeq fuel r1 r2
    | .call c1 p1 a1, .call c2 p2 a2 =>
        exprBeq fuel c1 c2 && p1 == p2 && exprsBeq fuel a1 a2
    | .get o1 n1, .get o2 n2 => exprBeq fuel o1 o2 && n1 == n2
    | .logical l1 o1 r1, .logical l2 o2 r2 =>
        exprBeq fuel l1 l2 && o1 == o2 && exprBeq fuel r1 r2
    | .set o1 n1 v1, .set o2 n2 v2 =>
        exprBeq fuel o1 o2 && n1 == n2 && exprBeq fuel v1 v2
    | .this k1, .this k2 => k1 == k2
    | .unary o1 r1, .unary o2 r2 => o1 == o2 && exprBeq fuel r1 r2
    | .grouping x1, .grouping x2 => exprBeq fuel x1 x2
    | .literal v1, .literal v2 => v1 == v2
    | .var n1, .var n2 => n1 == n2
    | .assign n1 v1, .assign n2 v2 => n1 == n2 && exprBeq fuel v1 v2
    | .funDecl d1, .funDecl d2 => fdBeq fuel d1 d2
    | _, _ => false

def exprsBeq : Nat → List Expr → List Expr → Bool
  | 0, _, _ => false
  | _ + 1, [], [] => true
  | fuel + 1, e1 :: t1, e2 :: t2 => exprBeq fuel e1 e2 && exprsBeq fuel t1 t2
  | _ + 1, _, _ => false

def fdBeq : Nat → FunctionDeclaration → FunctionDeclaration → Bool
  | 0, _, _ => false
  | fuel + 1, .mk n1 p1 b1, .mk n2 p2 b2 =>
      n1 == n2 && p1 == p2 && stmtsBeq fuel b1 b2

def stmtBeq : Nat → Stmt → Stmt → Bool
  | 0, _, _ => false
  | fuel + 1, s1, s2 =>
    match s1, s2 with
    | .block l1, .block l2 => stmtsBeq fuel l1 l2
    | .classStmt n1 m1 sm1, .classStmt n2 m2 sm2 =>
        n1 == n2 && fdsBeq fuel m1 m2 && fdsBeq fuel sm1 sm2
    | .exprStmt e1, .exprStmt e2 => exprBeq fuel e1 e2
    | .ifStmt c1 t1 e1, .ifStmt c2 t2 e2 =>
        exprBeq fuel c1 c2 && stmtBeq fuel t1 t2 &&
          (match e1, e2 with
           | none, none => true
           | some x1, some x2 => stmtBeq fuel x1 x2
           | _, _ => false)
    | .printStmt e1, .printStmt e2 => exprBeq fuel e1 e2
    | .returnStmt k1 e1, .returnStmt k2 e2 =>
        k1 == k2 &&
          (match e1, e2 with
           | none, none => true
           | some x1, some x2 => exprBeq fuel x1 x2
           | _, _ => false)
    | .varDecl n1 i1, .varDecl n2 i2 =>
        n1 == n2 &&
          (match i1, i2 with
           | none, none => true
           | some x1, some x2 => exprBeq fuel x1 x2
           | _, _ => false)
    | .whileStmt c1 b1, .whileStmt c2 b2 =>
        exprBeq fuel c1 c2 && stmtBeq fuel b1 b2
    | _, _ => false

def stmtsBeq : Nat → List Stmt → List Stmt → Bool
  | 0, _, _ => false
  | _ + 1, [], [] => true
  | fuel + 1, s1 :: t1, s2 :: t2 => stmtBeq fuel s1 s2 && stmtsBeq fuel t1 t2
  | _ + 1, _, _ => false

def fdsBeq : Nat → List FunctionDeclaration → List FunctionDeclaration → Bool
  | 0, _, _ => false
  | _ + 1, [], [] => true
  | fuel + 1, d1 :: t1, d2 :: t2 => fdBeq fuel d1 d2 && fdsBeq fuel t1 t2
  | _ + 1, _, _ => false

end

/-! ### Runtime values (src/loxxx/callable.py, src/loxxx/interpreter.py) -/

/-- `Function`: declaration, captured closure (an environment id into the
frame store) and the `is_initializer` flag. -/
structure FnData where
  decl : FunctionDeclaration
  closure : Nat
  isInitializer : Bool

/-- `Class`: name and method table. -/
structure ClassData where
  name : String
  methods : List (String × FnData)

/-- A runtime Lox value as the host sees it.  `int` mirrors host integers
that arise from negating a host bool (`-True == -1`); `native` is the
single `clock` builtin object. -/
inductive Value where
  | nil
  | bool (b : Bool)
  | num (q : Rat)
  | int (i : Int)
  | str (s : String)
  | fn (f : FnData)
  | cls (c : ClassData)
  | inst (id : Nat)
  | native

/-- `Environment`: one frame of the lexical chain (`_values` plus the
`_outer` link, here an index into the frame store). -/
structure Frame where
  values : List (String × Value)
  outer : Option Nat

/-- `Instance`: its class and mutable field map. -/
structure InstData where
  cls : ClassData
  fields : List (String × Value)

/-- The interpreter's mutable state: the frame store (environments are
identified by their index), the instance store, the current environment,
the globals environment, the locals side-table, the print output sink and
an oracle for the host clock. -/
structure St where
  frames : List Frame
  insts : List InstData
  env : Nat
  globals : Nat
  locals : List (Expr × Nat)
  output : List String
  now : Rat

/-- Runtime control flow: `LoxRuntimeError`, the `FunctionReturn` unwind
signal, and host-level exceptions (`NotImplementedError`, `TypeError`,
`KeyError`, exhausted recursion fuel). -/
inductive RtErr where
  | runtime (tok : Token) (msg : String)
  | funcReturn (v : Value)
  | host (msg : String)

/-- Every interpreter step returns its outcome together with the state at
the moment of return or raise (host exceptions keep the mutations that
already happened). -/
abbrev Res (α : Type) : Type := Except RtErr α × St

/-! ### Dictionary / association-list helpers -/

def assocSet : List (String × Value) → String → Value → List (String × Value)
  | [], n, v => [(n, v)]
  | p :: ps, n, v => if p.1 = n then (n, v) :: ps else p :: assocSet ps n v

def assocGet? (l : List (String × Value)) (n : String) : Option Value :=
  (l.find? (fun p => p.1 = n)).map (·.2)

def frameGet? (f : Frame) (n : String) : Option Value := assocGet? f.values n

def frameSet (f : Frame) (n : String) (v : Value) : Frame :=
  { f with values := assocSet f.values n v }

/-- Update the frame with the given id in the store (ids are always in
range in reachable states; out-of-range updates are dropped). -/
def updFrame (frames : List Frame) (i : Nat) (g : Frame → Frame) : List Frame :=
  match frames[i]? with
  | none => frames
  | some f => frames.set i (g f)

/-- `Interpreter.locals` lookup: host-dict lookup keyed structurally. -/
def localsGet? (fuel : Nat) (l : List (Expr × Nat)) (e : Expr) : Option Nat :=
  (l.find? (fun p => exprBeq fuel p.1 e)).map (·.2)

/-- `Interpreter.resolve`: host-dict assignment (replace or append). -/
def localsSet (fuel : Nat) (l : List (Expr × Nat)) (e : Expr) (d : Nat) :
    List (Expr × Nat) :=
  if l.any (fun p => exprBeq fuel p.1 e) then
    l.map (fun p => if exprBeq fuel p.1 e then (p.1, d) else p)
  else
    l ++ [(e, d)]

/-! ### Environment operations (src/loxxx/environment.py)

The chain walks (`get`, `assign`) take a fuel bound because the frame
graph is an arbitrary store in the model; in reachable states the chain
is acyclic and any fuel above the store size behaves like the host's
unbounded recursion. -/

def envGet : Nat → List Frame → Nat → Token → Except RtErr Value
  | 0, _, _, _ => .error (.host "environment chain fuel exhausted")
  | fuel + 1, frames, i, name =>
    match frames[i]? with
    | none => .error (.host "missing environment frame")
    | some f =>
      match frameGet? f name.lexeme with
      | some v => .ok v
      | none =>
        match f.outer with
        | some o => envGet fuel frames o name
        | none => .error (.runtime name ("Undefined variable '" ++ name.lexeme ++ "'."))

def envAssign : Nat → List Frame → Nat → Token → Value → Except RtErr (List Frame)
  | 0, _, _, _, _ => .error (.host "environment chain fuel exhausted")
  | fuel + 1, frames, i, name, v =>
    match frames[i]? with
    | none => .error (.host "missing environment frame")
    | some f =>
      if f.values.any (fun p => p.1 = name.lexeme) then
        .ok (updFrame frames i (fun g => frameSet g name.lexeme v))
      else
        match f.outer with
        | some o => envAssign fuel frames o name v
        | none => .error (.runtime name ("Undefined variable '" ++ name.lexeme ++ "'."))

/-- `Environment._find_ancestor`: walk `distance` parent links. -/
def findAncestor : Nat → List Frame → Nat → Option Nat
  | 0, _, i => some i
  | d + 1, frames, i =>
    match frames[i]? with
    | none => none
    | some f =>
      match f.outer with
      | none => none
      | some o => findAncestor d frames o

/-- `Environment.get_at`: direct dict access on the `distance`-th
ancestor (a missing ancestor or key is a host error, as in the source). -/
def getAt (d : Nat) (frames : List Frame) (i : Nat) (n : String) : Except RtErr Value :=
  match findAncestor d frames i with
  | none => .error (.host "missing ancestor environment")
  | some a =>
    match frames[a]? with
    | none => .error (.host "missing environment frame")
    | some f =>
      match frameGet? f n with
      | some v => .ok v
      | none => .error (.host "KeyError")

/-- `Environment.assign_at`: dict assignment on the `distance`-th ancestor. -/
def assignAt (d : Nat) (frames : List Frame) (i : Nat) (name : Token) (v : Value) :
    Except RtErr (List Frame) :=
  match findAncestor d frames i with
  | none => .error (.host "missing ancestor environment")
  | some a => .ok (updFrame frames a (fun g => frameSet g name.lexeme v))

/-! ### Value-level semantics (src/loxxx/interpreter.py helpers) -/

/-- `Interpreter._is_truthy`: `None` is false, bools are themselves,
everything else (including `0` and `""`) is true. -/
def isTruthy : Value → Bool
  | .nil => false
  | .bool b => b
  | _ => true

/-- `isinstance(v, float)` on the host value. -/
def isFloat : Value → Bool
  | .num _ => true
  | _ => false

/-- The numeric view the host's `==` uses: bools and ints are numbers. -/
def numView : Value → Option Rat
  | .bool b => some (if b then 1 else 0)
  | .num q => some q
  | .int i => some (i : Rat)
  | _ => none

/-- Structural equality of function objects (approximates host object
identity; the evaluator only reaches this for values the claims never
compare). -/
def fnDataBeq (fuel : Nat) (f g : FnData) : Bool :=
  fdBeq fuel f.decl g.decl && f.closure == g.closure &&
    f.isInitializer == g.isInitializer

def classDataBeq (fuel : Nat) (c d : ClassData) : Bool :=
  c.name == d.name &&
    (c.methods.length == d.methods.length &&
      (c.methods.zip d.methods).all
        (fun p => p.1.1 == p.2.1 && fnDataBeq fuel p.1.2 p.2.2))

/-- The host's `==` on Lox runtime values: numeric kinds (bool, int,
float) compare by value, `None == None`, strings by content, instances
by identity; everything else across kinds is unequal. -/
def pyEq (fuel : Nat) (a b : Value) : Bool :=
  match numView a, numView b with
  | some x, some y => x == y
  | _, _ =>
    match a, b with
    | .nil, .nil => true
    | .str s, .str t => s == t
    | .inst i, .inst j => i == j
    | .fn f, .fn g => fnDataBeq fuel f g
    | .cls c, .cls d => classDataBeq fuel c d
    | .native, .native => true
    | _, _ => false

/-- `str(value)` for a host float.  Integral doubles render as `"n.0"`;
the non-integral branch is a stand-in for the host's shortest-repr
formatting and is never relied on by a theorem. -/
def floatStr (q : Rat) : String :=
  if q.den = 1 then toString q.num ++ ".0"
  else toString q.num ++ "/" ++ toString q.den

/-- `str(value)` on an arbitrary runtime value, as `print(...)` in
`interpret_repl` uses it (`__str__` of each class). -/
def pyStr : Value → String
  | .nil => "None"
  | .bool b => if b then "True" else "False"
  | .num q => floatStr q
  | .int i => toString i
  | .str s => s
  | .fn f =>
    match f.decl.name with
    | some n => "<fn " ++ n.lexeme ++ ">"
    | none => "<anonymous fn>"
  | .cls c => c.name
  | .inst _ => "instance"
  | .native => "<native fn>"

/-- `str.endswith`, computed on the character lists (the host's builtin,
written so the kernel can evaluate it). -/
def strEndsWith (s suffix : String) : Bool :=
  suffix.data.isSuffixOf s.data

/-- `s[:-n]`, computed on the character lists. -/
def strDropRight (s : String) (n : Nat) : String :=
  ⟨s.data.take (s.data.length - n)⟩

/-- `Instance.__str__` needs the class name from the instance store, so
stringification of a full value takes the state. -/
def stringifyIn (st : St) : Value → String
  | .nil => "nil"
  | .bool b => if b then "true" else "false"
  | .num q =>
    let s := floatStr q
    if strEndsWith s ".0" then strDropRight s 2 else s
  | .inst id =>
    match st.insts[id]? with
    | some d => d.cls.name ++ " instance"
    | none => "instance"
  | v => pyStr v

/-- `Interpreter._validate_number_operand` — copied faithfully from the
source, whose test is inverted: it returns when the operand is NOT a
float and raises when it IS one. -/
def validateNumberOperand (op : Token) (v : Value) : Except RtErr Unit :=
  if !isFloat v then .ok ()
  else .error (.runtime op "Operand must be a number.")

/-- `Interpreter._validate_number_operands`. -/
def validateNumberOperands (op : Token) (l r : Value) : Except RtErr Unit :=
  if isFloat l && isFloat r then .ok ()
  else .error (.runtime op "Operands must be numbers.")

/-- The host's unary `-`: floats and ints negate, bools promote to int,
anything else is a host `TypeError`. -/
def pyNeg : Value → Except RtErr Value
  | .num q => .ok (.num (-q))
  | .int i => .ok (.int (-i))
  | .bool b => .ok (.int (if b then -1 else 0))
  | _ => .error (.host "TypeError: bad operand type for unary -")

/-- `isinstance(callee, Callable)`. -/
def isCallable : Value → Bool
  | .fn _ => true
  | .cls _ => true
  | .native => true
  | _ => false

/-- `Class.find_method`. -/
def findMethod (c : ClassData) (n : String) : Option FnData :=
  (c.methods.find? (fun p => p.1 = n)).map (·.2)

/-- `Callable.arity`: parameter count for functions, the initializer's
arity (or 0) for classes, 0 for `clock`. -/
def arityOf : Value → Nat
  | .fn f => f.decl.params.length
  | .cls c =>
    match findMethod c "init" with
    | some i => i.decl.params.length
    | none => 0
  | _ => 0

/-- `Function.bind`: a fresh environment whose parent is the captured
closure, defining `this` to the instance. -/
def bindFn (f : FnData) (instId : Nat) (st : St) : FnData × St :=
  let newId := st.frames.length
  ({ f with closure := newId },
   { st with frames := st.frames ++ [⟨[("this", .inst instId)], some f.closure⟩] })

/-- `Instance.get`: fields first, then a method bound to the instance,
else `Undefined property`. -/
def instGet (st : St) (id : Nat) (name : Token) : Res Value :=
  match st.insts[id]? with
  | none => (.error (.host "missing instance"), st)
  | some d =>
    match assocGet? d.fields name.lexeme with
    | some v => (.ok v, st)
    | none =>
      match findMethod d.cls name.lexeme with
      | some m =>
        let (bf, st') := bindFn m id st
        (.ok (.fn bf), st')
      | none =>
        (.error (.runtime name ("Undefined property '" ++ name.lexeme ++ "'.")), st)

/-- `Instance.set`: create-or-overwrite the field. -/
def instSet (st : St) (id : Nat) (name : Token) (v : Value) : St :=
  match st.insts[id]? with
  | none => st
  | some d =>
    { st with insts := st.insts.set id { d with fields := assocSet d.fields name.lexeme v } }

/-- `Interpreter._look_up_variable`: the locals side-table entry selects
`get_at` from the current environment, absence falls back to globals. -/
def lookUpVariable (fuel : Nat) (name : Token) (e : Expr) (st : St) : Res Value :=
  match localsGet? fuel st.locals e with
  | some d => (getAt d st.frames st.env name.lexeme, st)
  | none => (envGet fuel st.frames st.globals name, st)

def valOfLit : LitVal → Value
  | .nil => .nil
  | .bool b => .bool b
  | .num q => .num q
  | .str s => .str s

/-- `Environment.define` on the current environment. -/
def stDefine (st : St) (n : String) (v : Value) : St :=
  { st with frames := updFrame st.frames st.env (fun f => frameSet f n v) }

/-! ### The evaluator (src/loxxx/interpreter.py, src/loxxx/callable.py)

Mutual recursion over a fuel bound; the host recurses on its own call
stack, and any fuel large enough for the program behaves identically. -/

mutual

def evaluate : Nat → Expr → St → Res Value
  | 0, _, st => (.error (.host "recursion fuel exhausted"), st)
  | fuel + 1, e, st =>
    match e with
    | .literal v => (.ok (valOfLit v), st)
    | .grouping inner => evaluate fuel inner st
    | .var name => lookUpVariable (fuel + 1) name (.var name) st
    | .this keyword => lookUpVariable (fuel + 1) keyword (.this keyword) st
    | .unary op r =>
      match evaluate fuel r st with
      | (.error err, s1) => (.error err, s1)
      | (.ok rv, s1) =>
        match op.type with
        | .bang => (.ok (.bool (!isTruthy rv)), s1)
        | .minus =>
          match validateNumberOperand op rv with
          | .error err => (.error err, s1)
          | .ok _ =>
            match pyNeg rv with
            | .ok v => (.ok v, s1)
            | .error err => (.error err, s1)
        | _ => (.error (.host "No handler for the operator"), s1)
    | .logical l op r =>
      match evaluate fuel l st with
      | (.error err, s1) => (.error err, s1)
      | (.ok lv, s1) =>
        if op.type = .orKw then
          if isTruthy lv then (.ok lv, s1) else evaluate fuel r s1
        else
          if !isTruthy lv then (.ok lv, s1) else evaluate fuel r s1
    | .binary l op r =>
      match evaluate fuel l st with
      | (.error err, s1) => (.error err, s1)
      | (.ok lv, s1) =>
        match evaluate fuel r s1 with
        | (.error err, s2) => (.error err, s2)
        | (.ok rv, s2) =>
          match op.type with
          | .equalEqual => (.ok (.bool (pyEq (fuel + 1) lv rv)), s2)
          | .bangEqual => (.ok (.bool (!pyEq (fuel + 1) lv rv)), s2)
          | .plus =>
            match lv, rv with
            | .num a, .num b => (.ok (.num (a + b)), s2)
            | .str a, .str b => (.ok (.str (a ++ b)), s2)
            | _, _ =>
              (.error (.runtime op "Both operands must be either Numbers or Strings"), s2)
          | .minus =>
            match validateNumberOperands op lv rv with
            | .error err => (.error err, s2)
            | .ok _ =>
              match lv, rv with
              | .num a, .num b => (.ok (.num (a - b)), s2)
              | _, _ => (.error (.host "unreachable"), s2)
          | .slash =>
            match validateNumberOperands op lv rv with
            | .error err => (.error err, s2)
            | .ok _ =>
              match lv, rv with
              | .num a, .num b =>
                if b == 0 then (.error (.runtime op "Division by zero"), s2)
                else (.ok (.num (a / b)), s2)
              | _, _ => (.error (.host "unreachable"), s2)
          | .star =>
            match validateNumberOperands op lv rv with
            | .error err => (.error err, s2)
            | .ok _ =>
              match lv, rv with
              | .num a, .num b => (.ok (.num (a * b)), s2)
              | _, _ => (.error (.host "unreachable"), s2)
          | .greater =>
            match validateNumberOperands op lv rv with
            | .error err => (.error err, s2)
            | .ok _ =>
              match lv, rv with
              | .num a, .num b => (.ok (.bool (decide (b < a))), s2)
              | _, _ => (.error (.host "unreachable"), s2)
          | .greaterEqual =>
            match validateNumberOperands op lv rv with
            | .error err => (.error err, s2)
            | .ok _ =>
              match lv, rv with
              | .num a, .num b => (.ok (.bool (decide (b ≤ a))), s2)
              | _, _ => (.error (.host "unreachable"), s2)
          | .less =>
            match validateNumberOperands op lv rv with
            | .error err => (.error err, s2)
            | .ok _ =>
              match lv, rv with
              | .num a, .num b => (.ok (.bool (decide (a < b))), s2)
              | _, _ => (.error (.host "unreachable"), s2)
          | .lessEqual =>
            match validateNumberOperands op lv rv with
            | .error err => (.error err, s2)
            | .ok _ =>
              match lv, rv with
              | .num a, .num b => (.ok (.bool (decide (a ≤ b))), s2)
              | _, _ => (.error (.host "unreachable"), s2)
          | _ => (.error (.host "No handler for the operator"), s2)
    | .assign name value =>
      match evaluate fuel value st with
      | (.error err, s1) => (.error err, s1)
      | (.ok v, s1) =>
        match localsGet? (fuel + 1) s1.locals (.assign name value) with
        | some d =>
          match assignAt d s1.frames s1.env name v with
          | .ok frames' => (.ok v, { s1 with frames := frames' })
          | .error err => (.error err, s1)
        | none =>
          match envAssign (fuel + 1) s1.frames s1.globals name v with
          | .ok frames' => (.ok v, { s1 with frames := frames' })
          | .error err => (.error err, s1)
    | .call callee paren args =>
      match evaluate fuel callee st with
      | (.error err, s1) => (.error err, s1)
      | (.ok c, s1) =>
        if !isCallable c then
          (.error (.runtime paren "Can only call functions and classes."), s1)
        else if args.length ≠ arityOf c then
          (.error (.runtime paren ("Expected " ++ toString (arityOf c) ++
            " arguments but got " ++ toString args.length ++ ".")), s1)
        else
          match evalArgs fuel args s1 with
          | (.error err, s2) => (.error err, s2)
          | (.ok vs, s2) => callValue fuel c vs s2
    | .get obj name =>
      match evaluate fuel obj st with
      | (.error err, s1) => (.error err, s1)
      | (.ok ov, s1) =>
        match ov with
        | .inst id => instGet s1 id name
        | _ => (.error (.runtime name "Only instances have properties."), s1)
    | .set obj name value =>
      match evaluate fuel obj st with
      | (.error err, s1) => (.error err, s1)
      | (.ok ov, s1) =>
        match ov with
        | .inst id =>
          match evaluate fuel value s1 with
          | (.error err, s2) => (.error err, s2)
          | (.ok v, s2) => (.ok v, instSet s2 id name v)
        | _ => (.error (.runtime name "Only instances have properties."), s1)
    | .funDecl d =>
      let f : FnData := ⟨d, st.env, false⟩
      match d.name with
      | some n => (.ok (.fn f), stDefine st n.lexeme (.fn f))
      | none => (.ok (.fn f), st)

def evalArgs : Nat → List Expr → St → Res (List Value)
  | 0, _, st => (.error (.host "recursion fuel exhausted"), st)
  | _ + 1, [], st => (.ok [], st)
  | fuel + 1, a :: rest, st =>
    match evaluate fuel a st with
    | (.error err, s1) => (.error err, s1)
    | (.ok v, s1) =>
      match evalArgs fuel rest s1 with
      | (.error err, s2) => (.error err, s2)
      | (.ok vs, s2) => (.ok (v :: vs), s2)

def callValue : Nat → Value → List Value → St → Res Value
  | 0, _, _, st => (.error (.host "recursion fuel exhausted"), st)
  | fuel + 1, .fn f, args, st => functionCall fuel f args st
  | fuel + 1, .cls c, args, st => classCall fuel c args st
  | _ + 1, .native, _, st => (.ok (.num st.now), st)
  | _ + 1, _, _, st => (.error (.host "not callable"), st)

/-- `Function.call`: fresh environment over the closure, parameters bound
by position (`zip` truncates like the host's), body run as a block;
`FunctionReturn` is caught here, initializers always answer
`closure.get_at(0, "this")`, other functions answer the carried value or
`None`. -/
def functionCall : Nat → FnData → List Value → St → Res Value
  | 0, _, _, st => (.error (.host "recursion fuel exhausted"), st)
  | fuel + 1, f, args, st =>
    let newId := st.frames.length
    let st1 := { st with
      frames := st.frames ++ [⟨(f.decl.params.map (·.lexeme)).zip args, some f.closure⟩] }
    match executeBlock fuel f.decl.body newId st1 with
    | (.ok _, s') =>
      if f.isInitializer then (getAt 0 s'.frames f.closure "this", s')
      else (.ok .nil, s')
    | (.error (.funcReturn v), s') =>
      if f.isInitializer then (getAt 0 s'.frames f.closure "this", s')
      else (.ok v, s')
    | (.error err, s') => (.error err, s')

/-- `Class.call`: make the instance, run a bound `init` when present,
return the instance. -/
def classCall : Nat → ClassData → List Value → St → Res Value
  | 0, _, _, st => (.error (.host "recursion fuel exhausted"), st)
  | fuel + 1, c, args, st =>
    let id := st.insts.length
    let st1 := { st with insts := st.insts ++ [⟨c, []⟩] }
    match findMethod c "init" with
    | none => (.ok (.inst id), st1)
    | some i =>
      let (bf, st2) := bindFn i id st1
      match functionCall fuel bf args st2 with
      | (.ok _, s3) => (.ok (.inst id), s3)
      | (.error err, s3) => (.error err, s3)

def execute : Nat → Stmt → St → Res Unit
  | 0, _, st => (.error (.host "recursion fuel exhausted"), st)
  | fuel + 1, s, st =>
    match s with
    | .block stmts =>
      let newId := st.frames.length
      executeBlock fuel stmts newId { st with frames := st.frames ++ [⟨[], some st.env⟩] }
    | .classStmt name methods _ =>
      let st1 := stDefine st name.lexeme .nil
      let ms := methods.map (fun m =>
        let lex := (m.name.map (·.lexeme)).getD ""
        (lex, FnData.mk m st1.env (decide (lex = "init"))))
      match envAssign (fuel + 1) st1.frames st1.env name (.cls ⟨name.lexeme, ms⟩) with
      | .ok frames' => (.ok (), { st1 with frames := frames' })
      | .error err => (.error err, st1)
    | .exprStmt e =>
      match evaluate fuel e st with
      | (.ok _, s1) => (.ok (), s1)
      | (.error err, s1) => (.error err, s1)
    | .ifStmt c t eb =>
      match evaluate fuel c st with
      | (.error err, s1) => (.error err, s1)
      | (.ok cv, s1) =>
        if isTruthy cv then execute fuel t s1
        else
          match eb with
          | some el => execute fuel el s1
          | none => (.ok (), s1)
    | .printStmt e =>
      match evaluate fuel e st with
      | (.error err, s1) => (.error err, s1)
      | (.ok v, s1) => (.ok (), { s1 with output := s1.output ++ [stringifyIn s1 v] })
    | .returnStmt _ eo =>
      match eo with
      | none => (.error (.funcReturn .nil), st)
      | some ex =>
        match evaluate fuel ex st with
        | (.error err, s1) => (.error err, s1)
        | (.ok v, s1) => (.error (.funcReturn v), s1)
    | .varDecl name initializer =>
      match initializer with
      | none => (.ok (), stDefine st name.lexeme .nil)
      | some e =>
        match evaluate fuel e st with
        | (.error err, s1) => (.error err, s1)
        | (.ok v, s1) => (.ok (), stDefine s1 name.lexeme v)
    | .whileStmt c b =>
      match evaluate fuel c st with
      | (.error err, s1) => (.error err, s1)
      | (.ok cv, s1) =>
        if isTruthy cv then
          match execute fuel b s1 with
          | (.error err, s2) => (.error err, s2)
          | (.ok _, s2) => execute fuel (.whileStmt c b) s2
        else (.ok (), s1)

def executeStmts : Nat → List Stmt → St → Res Unit
  | 0, _, st => (.error (.host "recursion fuel exhausted"), st)
  | _ + 1, [], st => (.ok (), st)
  | fuel + 1, s :: rest, st =>
    match execute fuel s st with
    | (.error err, s1) => (.error err, s1)
    | (.ok _, s1) => executeStmts fuel rest s1

/-- `Interpreter.execute_block`: swap in the environment, run the
statements, restore the prior environment on every exit path. -/
def executeBlock : Nat → List Stmt → Nat → St → Res Unit
  | 0, _, _, st => (.error (.host "recursion fuel exhausted"), st)
  | fuel + 1, stmts, envId, st =>
    let prev := st.env
    let (r, s') := executeStmts fuel stmts { st with env := envId }
    (r, { s' with env := prev })

end

/-- `Interpreter.interpret`. -/
def interpret (fuel : Nat) (stmts : List Stmt) (st : St) : Res Unit :=
  executeStmts fuel stmts st

/-- `Interpreter.interpret_repl`: a lone expression statement is
evaluated and its raw value handed to the host's `print` (so the line
rendered is `str(value)`, not `_stringify`); anything else goes through
`interpret`. -/
def interpretRepl (fuel : Nat) (stmts : List Stmt) (st : St) : Res Unit :=
  match stmts with
  | [.exprStmt e] =>
    match evaluate fuel e st with
    | (.ok v, s1) => (.ok (), { s1 with output := s1.output ++ [pyStr v] })
    | (.error err, s1) => (.error err, s1)
  | _ => interpret fuel stmts st

/-- `Interpreter.__init__`: globals seeded with `clock`. -/
def initSt : St :=
  { frames := [⟨[("clock", .native)], none⟩], insts := [], env := 0, globals := 0,
    locals := [], output := [], now := 0 }

/-! ### The resolver (src/loxxx/resolver.py)

This resolver predates the class support in the evaluator: its
`FunctionType` knows only `NONE`/`FUNCTION`, and it registers no handler
for `Class`, `Get`, `Set` or `This` nodes, so those hit the
single-dispatch fallback (`NotImplementedError`), modelled as a host
error string. -/

inductive FunctionType where
  | NONE
  | FUNCTION
  deriving DecidableEq

structure VarInScope where
  token : Token
  isDefined : Bool
  hasRefs : Bool

/-- Resolver state: the scope stack (innermost scope at the head; the
host keeps the top at the end of its list, which is only a storage-order
difference), the error list, the locals side-table being written through
`Interpreter.resolve`, and `_current_function`. -/
structure RState where
  scopes : List (List (String × VarInScope))
  errors : List (Token × String)
  locals : List (Expr × Nat)
  currentFunction : FunctionType

def vsSet : List (String × VarInScope) → String → VarInScope → List (String × VarInScope)
  | [], n, v => [(n, v)]
  | p :: ps, n, v => if p.1 = n then (n, v) :: ps else p :: vsSet ps n v

def beginScope (rs : RState) : RState :=
  { rs with scopes := [] :: rs.scopes }

/-- `Resolver._end_scope`: pop the scope and report every binding that
was never referenced. -/
def endScope (rs : RState) : RState :=
  match rs.scopes with
  | [] => rs
  | scope :: rest =>
    { rs with
      scopes := rest,
      errors := rs.errors ++
        (scope.filter (fun p => !p.2.hasRefs)).map
          (fun p => (p.2.token, "A variable is never used")) }

/-- `Resolver._declare`: duplicate names in the same scope are reported,
and the entry is (re)created undefined and unreferenced. -/
def declare (rs : RState) (name : Token) : RState :=
  match rs.scopes with
  | [] => rs
  | scope :: rest =>
    let rs1 :=
      if scope.any (fun p => p.1 = name.lexeme) then
        { rs with errors := rs.errors ++
            [(name, "A variable with this name is already defined in this scope.")] }
      else rs
    { rs1 with scopes := vsSet scope name.lexeme ⟨name, false, false⟩ :: rest }

/-- `Resolver._define`. -/
def define (rs : RState) (name : Token) : RState :=
  match rs.scopes with
  | [] => rs
  | scope :: rest =>
    { rs with scopes :=
        scope.map (fun p =>
          if p.1 = name.lexeme then (p.1, { p.2 with isDefined := true }) else p) :: rest }

/-- `Resolver._resolve_local`'s scan, innermost scope first.  On a hit it
records the distance in the locals side-table and marks the binding
referenced, then KEEPS SCANNING — the source has no `break` (its own
TODO asks "Shouldn't we break the loop here?"), so a hit in an outer
scope overwrites the recorded distance. -/
def resolveLocalGo (fuel : Nat) (e : Expr) (lex : String) :
    List (List (String × VarInScope)) → Nat → List (Expr × Nat) →
    List (List (String × VarInScope)) × List (Expr × Nat)
  | [], _, l => ([], l)
  | scope :: rest, d, l =>
    if scope.any (fun p => p.1 = lex) then
      let l' := localsSet fuel l e d
      let scope' := scope.map (fun p =>
        if p.1 = lex then (p.1, { p.2 with hasRefs := true }) else p)
      let (rest', l'') := resolveLocalGo fuel e lex rest (d + 1) l'
      (scope' :: rest', l'')
    else
      let (rest', l') := resolveLocalGo fuel e lex rest (d + 1) l
      (scope :: rest', l')

def resolveLocal (fuel : Nat) (rs : RState) (e : Expr) (name : Token) : RState :=
  let (scopes', locals') := resolveLocalGo fuel e name.lexeme rs.scopes 0 rs.locals
  { rs with scopes := scopes', locals := locals' }

mutual

def resolveStmt : Nat → Stmt → RState → Except String RState
  | 0, _, _ => .error "resolver fuel exhausted"
  | fuel + 1, s, rs =>
    match s with
    | .block stmts => do
      let rs1 ← resolveStmts fuel stmts (beginScope rs)
      pure (endScope rs1)
    | .classStmt .. => .error "NotImplementedError"
    | .exprStmt e => resolveExpr fuel e rs
    | .ifStmt c t eb => do
      let rs1 ← resolveExpr fuel c rs
      let rs2 ← resolveStmt fuel t rs1
      match eb with
      | some el => resolveStmt fuel el rs2
      | none => pure rs2
    | .printStmt e => resolveExpr fuel e rs
    | .returnStmt kw eo =>
      let rs1 :=
        if rs.currentFunction = .NONE then
          { rs with errors := rs.errors ++ [(kw, "Can't return from top-level code.")] }
        else rs
      match eo with
      | some e => resolveExpr fuel e rs1
      | none => pure rs1
    | .varDecl name initializer => do
      let rs1 := declare rs name
      let rs2 ←
        match initializer with
        | some e => resolveExpr fuel e rs1
        | none => pure rs1
      pure (define rs2 name)
    | .whileStmt c b => do
      let rs1 ← resolveExpr fuel c rs
      resolveStmt fuel b rs1

def resolveExpr : Nat → Expr → RState → Except String RState
  | 0, _, _ => .error "resolver fuel exhausted"
  | fuel + 1, e, rs =>
    match e with
    | .assign name value => do
      let rs1 ← resolveExpr fuel value rs
      pure (resolveLocal (fuel + 1) rs1 (.assign name value) name)
    | .binary l _ r => do
      let rs1 ← resolveExpr fuel l rs
      resolveExpr fuel r rs1
    | .call callee _ args => do
      let rs1 ← resolveExpr fuel callee rs
      resolveExprs fuel args rs1
    | .grouping inner => resolveExpr fuel inner rs
    | .literal _ => pure rs
    | .logical l _ r => do
      let rs1 ← resolveExpr fuel l rs
      resolveExpr fuel r rs1
    | .unary _ r => resolveExpr fuel r rs
    | .var name =>
      let rs1 :=
        match rs.scopes with
        | [] => rs
        | scope :: _ =>
          match scope.find? (fun p => p.1 = name.lexeme) with
          | some p =>
            if !p.2.isDefined then
              { rs with errors := rs.errors ++
                  [(name, "Can't read local variable in its own initializer.")] }
            else rs
          | none => rs
      pure (resolveLocal (fuel + 1) rs1 (.var name) name)
    | .funDecl d =>
      let rs1 :=
        match d.name with
        | some n => define (declare rs n) n
        | none => rs
      resolveFunction fuel d .FUNCTION rs1
    | .get .. => .error "NotImplementedError"
    | .set .. => .error "NotImplementedError"
    | .this .. => .error "NotImplementedError"

def resolveFunction : Nat → FunctionDeclaration → FunctionType → RState →
    Except String RState
  | 0, _, _, _ => .error "resolver fuel exhausted"
  | fuel + 1, d, ft, rs => do
    let enclosing := rs.currentFunction
    let rs1 := { rs with currentFunction := ft }
    let rs2 := d.params.foldl (fun acc p => define (declare acc p) p) (beginScope rs1)
    let rs3 ← resolveStmts fuel d.body rs2
    pure { endScope rs3 with currentFunction := enclosing }

def resolveStmts : Nat → List Stmt → RState → Except String RState
  | 0, _, _ => .error "resolver fuel exhausted"
  | _ + 1, [], rs => pure rs
  | fuel + 1, s :: rest, rs => do
    let rs1 ← resolveStmt fuel s rs
    resolveStmts fuel rest rs1

def resolveExprs : Nat → List Expr → RState → Except String RState
  | 0, _, _ => .error "resolver fuel exhausted"
  | _ + 1, [], rs => pure rs
  | fuel + 1, e :: rest, rs => do
    let rs1 ← resolveExpr fuel e rs
    resolveExprs fuel rest rs1

end

def initRState : RState :=
  { scopes := [], errors := [], locals := [], currentFunction := .NONE }

/-- `Resolver.run`: an enclosing scope around the whole program. -/
def resolverRun (fuel : Nat) (stmts : List Stmt) : Except String RState := do
  let rs1 ← resolveStmts fuel stmts (beginScope initRState)
  pure (endScope rs1)

/-! ### The recursive-descent front end (src/loxxx/parser.py)

The state is the token list, the cursor and the diagnostics recorded
through `Parser.error` (which reports to the host sink).  `ParseError`
carries no payload, exactly as in the source.  The source indexes
`self._tokens[self._current]` directly and relies on a terminating EOF
token; total indexing below falls back to an EOF sentinel. -/

structure PState where
  tokens : List Token
  current : Nat
  errors : List (Token × String)

def dfltTok : Token := ⟨.eof, "", none, 0⟩

def peek (ps : PState) : Token := ps.tokens.getD ps.current dfltTok

def isAtEnd (ps : PState) : Bool := (peek ps).type = .eof

def previousTok (ps : PState) : Token := ps.tokens.getD (ps.current - 1) dfltTok

def padvance (ps : PState) : PState :=
  if isAtEnd ps then ps else { ps with current := ps.current + 1 }

def pcheck (ps : PState) (t : TokenType) : Bool :=
  if isAtEnd ps then false else (peek ps).type = t

/-- `Parser.match`: consume the current token when it has one of the
given types. -/
def tryMatchAny (ps : PState) (ts : List TokenType) : Bool × PState :=
  if ts.any (fun t => pcheck ps t) then (true, padvance ps) else (false, ps)

def tryMatch (ps : PState) (t : TokenType) : Bool × PState := tryMatchAny ps [t]

/-- `Parser.error`: record the diagnostic (reported to the host sink)
and produce the `ParseError` to be raised by the caller. -/
def perror (ps : PState) (tok : Token) (msg : String) : PState :=
  { ps with errors := ps.errors ++ [(tok, msg)] }

/-- `Parser.consume`. -/
def pconsume (ps : PState) (t : TokenType) (msg : String) :
    Except Unit Token × PState :=
  if pcheck ps t then (.ok (peek ps), padvance ps)
  else (.error (), perror ps (peek ps) msg)

def newStatementTokens : List TokenType :=
  [.classKw, .funKw, .varKw, .forKw, .ifKw, .whileKw, .printKw, .returnKw]

def synchronizeGo : Nat → PState → PState
  | 0, ps => ps
  | fuel + 1, ps =>
    if isAtEnd ps then ps
    else if (previousTok ps).type = .semicolon then ps
    else if newStatementTokens.contains (peek ps).type then ps
    else synchronizeGo fuel (padvance ps)

/-- `Parser._synchronize`. -/
def synchronize (fuel : Nat) (ps : PState) : PState :=
  synchronizeGo fuel (padvance ps)

mutual

/-- `Parser.parse_declaration`: only `var` declarations and statements —
this parser variant has no `class`/`fun` production.  `ParseError` is
caught here: synchronize and yield `None`. -/
def parseDeclaration : Nat → PState → Option Stmt × PState
  | 0, ps => (none, ps)
  | fuel + 1, ps =>
    let (m, ps1) := tryMatch ps .varKw
    let (r, ps2) := if m then parseVarDeclaration fuel ps1 else parseStatement fuel ps1
    match r with
    | .ok s => (some s, ps2)
    | .error _ => (none, synchronize fuel ps2)

def parseVarDeclaration : Nat → PState → Except Unit Stmt × PState
  | 0, ps => (.error (), ps)
  | fuel + 1, ps =>
    match pconsume ps .identifier "Expect a variable name." with
    | (.error _, ps1) => (.error (), ps1)
    | (.ok name, ps1) =>
      let (m, ps2) := tryMatch ps1 .equal
      if m then
        match parseExpression fuel ps2 with
        | (.error _, ps3) => (.error (), ps3)
        | (.ok e, ps3) =>
          match pconsume ps3 .semicolon "Expect ';' after a variable declaration." with
          | (.error _, ps4) => (.error (), ps4)
          | (.ok _, ps4) => (.ok (.varDecl name (some e)), ps4)
      else
        match pconsume ps2 .semicolon "Expect ';' after a variable declaration." with
        | (.error _, ps3) => (.error (), ps3)
        | (.ok _, ps3) => (.ok (.varDecl name none), ps3)

/-- `Parser.parse_statement`: `for`/`if`/`print`/`while`/block, falling
back to an expression statement — no `return` production exists. -/
def parseStatement : Nat → PState → Except Unit Stmt × PState
  | 0, ps => (.error (), ps)
  | fuel + 1, ps =>
    let (mFor, ps1) := tryMatch ps .forKw
    if mFor then parseForStatement fuel ps1 else
    let (mIf, ps2) := tryMatch ps1 .ifKw
    if mIf then parseIfStatement fuel ps2 else
    let (mPr, ps3) := tryMatch ps2 .printKw
    if mPr then parsePrintStatement fuel ps3 else
    let (mWh, ps4) := tryMatch ps3 .whileKw
    if mWh then parseWhileStatement fuel ps4 else
    let (mBr, ps5) := tryMatch ps4 .leftBrace
    if mBr then
      match parseBlockLoop fuel ps5 [] with
      | (.error _, ps6) => (.error (), ps6)
      | (.ok ss, ps6) => (.ok (.block (ss.filterMap id)), ps6)
    else parseExpressionStatement fuel ps5

/-- `Parser.parse_for_statement`: desugars into `While`, wrapped in
blocks according to which clauses are present. -/
def parseForStatement : Nat → PState → Except Unit Stmt × PState
  | 0, ps => (.error (), ps)
  | fuel + 1, ps =>
    match pconsume ps .leftParen "Expect '(' after 'for'." with
    | (.error _, ps1) => (.error (), ps1)
    | (.ok _, ps1) =>
      let (mSemi, ps2) := tryMatch ps1 .semicolon
      let (initRes, psA) :=
        if mSemi then ((Except.ok none : Except Unit (Option Stmt)), ps2)
        else
          let (mVar, ps3) := tryMatch ps2 .varKw
          if mVar then
            match parseVarDeclaration fuel ps3 with
            | (.error _, ps4) => (.error (), ps4)
            | (.ok s, ps4) => (.ok (some s), ps4)
          else
            match parseExpressionStatement fuel ps3 with
            | (.error _, ps4) => (.error (), ps4)
            | (.ok s, ps4) => (.ok (some s), ps4)
      match initRes with
      | .error _ => (.error (), psA)
      | .ok initializer =>
        let (condRes, psB) :=
          if !pcheck psA .semicolon then
            match parseExpression fuel psA with
            | (.error _, ps5) => ((Except.error () : Except Unit (Option Expr)), ps5)
            | (.ok c, ps5) => (.ok (some c), ps5)
          else (.ok none, psA)
        match condRes with
        | .error _ => (.error (), psB)
        | .ok condition =>
          match pconsume psB .semicolon "Expect ';' after loop condition." with
          | (.error _, ps6) => (.error (), ps6)
          | (.ok _, ps6) =>
            let (incRes, psC) :=
              if !pcheck ps6 .rightParen then
                match parseExpression fuel ps6 with
                | (.error _, ps7) => ((Except.error () : Except Unit (Option Expr)), ps7)
                | (.ok i, ps7) => (.ok (some i), ps7)
              else (.ok none, ps6)
            match incRes with
            | .error _ => (.error (), psC)
            | .ok increment =>
              match pconsume psC .rightParen "Expect ')' after for clauses." with
              | (.error _, ps8) => (.error (), ps8)
              | (.ok _, ps8) =>
                match parseStatement fuel ps8 with
                | (.error _, ps9) => (.error (), ps9)
                | (.ok body0, ps9) =>
                  let body1 :=
                    match increment with
                    | some inc => Stmt.block [body0, .exprStmt inc]
                    | none => body0
                  let cond :=
                    match condition with
                    | none => Expr.literal (.bool true)
                    | some c => c
                  let body2 := Stmt.whileStmt cond body1
                  let body3 :=
                    match initializer with
                    | some i => Stmt.block [i, body2]
                    | none => body2
                  (.ok body3, ps9)

def parseIfStatement : Nat → PState → Except Unit Stmt × PState
  | 0, ps => (.error (), ps)
  | fuel + 1, ps =>
    match pconsume ps .leftParen "Expect '(' after 'if'." with
    | (.error _, ps1) => (.error (), ps1)
    | (.ok _, ps1) =>
      match parseExpression fuel ps1 with
      | (.error _, ps2) => (.error (), ps2)
      | (.ok cond, ps2) =>
        match pconsume ps2 .rightParen "Expect ')' after if condition." with
        | (.error _, ps3) => (.error (), ps3)
        | (.ok _, ps3) =>
          match parseStatement fuel ps3 with
          | (.error _, ps4) => (.error (), ps4)
          | (.ok thenBranch, ps4) =>
            let (mElse, ps5) := tryMatch ps4 .elseKw
            if mElse then
              match parseStatement fuel ps5 with
              | (.error _, ps6) => (.error (), ps6)
              | (.ok elseBranch, ps6) =>
                (.ok (.ifStmt cond thenBranch (some elseBranch)), ps6)
            else (.ok (.ifStmt cond thenBranch none), ps5)

def parsePrintStatement : Nat → PState → Except Unit Stmt × PState
  | 0, ps => (.error (), ps)
  | fuel + 1, ps =>
    match parseExpression fuel ps with
    | (.error _, ps1) => (.error (), ps1)
    | (.ok v, ps1) =>
      match pconsume ps1 .semicolon "Expect ';' after a value." with
      | (.error _, ps2) => (.error (), ps2)
      | (.ok _, ps2) => (.ok (.printStmt v), ps2)

def parseWhileStatement : Nat → PState → Except Unit Stmt × PState
  | 0, ps => (.error (), ps)
  | fuel + 1, ps =>
    match pconsume ps .leftParen "Expect '(' after 'while'." with
    | (.error _, ps1) => (.error (), ps1)
    | (.ok _, ps1) =>
      match parseExpression fuel ps1 with
      | (.error _, ps2) => (.error (), ps2)
      | (.ok cond, ps2) =>
        match pconsume ps2 .rightParen "Expect ')' after while condition." with
        | (.error _, ps3) => (.error (), ps3)
        | (.ok _, ps3) =>
          match parseStatement fuel ps3 with
          | (.error _, ps4) => (.error (), ps4)
          | (.ok body, ps4) => (.ok (.whileStmt cond body), ps4)

def parseExpressionStatement : Nat → PState → Except Unit Stmt × PState
  | 0, ps => (.error (), ps)
  | fuel + 1, ps =>
    match parseExpression fuel ps with
    | (.error _, ps1) => (.error (), ps1)
    | (.ok e, ps1) =>
      match pconsume ps1 .semicolon "Expect ';' after an expression." with
      | (.error _, ps2) => (.error (), ps2)
      | (.ok _, ps2) => (.ok (.exprStmt e), ps2)

/-- `Parser.parse_block_statement`'s loop plus the closing-brace
consume. -/
def parseBlockLoop : Nat → PState → List (Option Stmt) →
    Except Unit (List (Option Stmt)) × PState
  | 0, ps, _ => (.error (), ps)
  | fuel + 1, ps, acc =>
    if !pcheck ps .rightBrace && !isAtEnd ps then
      let (d, ps1) := parseDeclaration fuel ps
      parseBlockLoop fuel ps1 (acc ++ [d])
    else
      match pconsume ps .rightBrace "Expect '\x7d' after block." with
      | (.error _, ps1) => (.error (), ps1)
      | (.ok _, ps1) => (.ok acc, ps1)

def parseExpression : Nat → PState → Except Unit Expr × PState
  | 0, ps => (.error (), ps)
  | fuel + 1, ps => parseAssignment fuel ps

/-- `Parser.parse_assignment`: an `=` after a `Variable` becomes
`Assign`; after anything else the `Invalid assignment target`
diagnostic is recorded (but not raised) and the LHS is returned. -/
def parseAssignment : Nat → PState → Except Unit Expr × PState
  | 0, ps => (.error (), ps)
  | fuel + 1, ps =>
    match parseOr fuel ps with
    | (.error _, ps1) => (.error (), ps1)
    | (.ok expr, ps1) =>
      let (m, ps2) := tryMatch ps1 .equal
      if m then
        let equals := previousTok ps2
        match parseAssignment fuel ps2 with
        | (.error _, ps3) => (.error (), ps3)
        | (.ok value, ps3) =>
          match expr with
          | .var name => (.ok (.assign name value), ps3)
          | _ => (.ok expr, perror ps3 equals "Invalid assignment target.")
      else (.ok expr, ps1)

def parseOr : Nat → PState → Except Unit Expr × PState
  | 0, ps => (.error (), ps)
  | fuel + 1, ps =>
    match parseAnd fuel ps with
    | (.error _, ps1) => (.error (), ps1)
    | (.ok e, ps1) => parseOrLoop fuel e ps1

def parseOrLoop : Nat → Expr → PState → Except Unit Expr × PState
  | 0, _, ps => (.error (), ps)
  | fuel + 1, e, ps =>
    let (m, ps1) := tryMatch ps .orKw
    if m then
      let op := previousTok ps1
      match parseAnd fuel ps1 with
      | (.error _, ps2) => (.error (), ps2)
      | (.ok r, ps2) => parseOrLoop fuel (.logical e op r) ps2
    else (.ok e, ps1)

def parseAnd : Nat → PState → Except Unit Expr × PState
  | 0, ps => (.error (), ps)
  | fuel + 1, ps =>
    match parseEquality fuel ps with
    | (.error _, ps1) => (.error (), ps1)
    | (.ok e, ps1) => parseAndLoop fuel e ps1

def parseAndLoop : Nat → Expr → PState → Except Unit Expr × PState
  | 0, _, ps => (.error (), ps)
  | fuel + 1, e, ps =>
    let (m, ps1) := tryMatch ps .andKw
    if m then
      let op := previousTok ps1
      match parseEquality fuel ps1 with
      | (.error _, ps2) => (.error (), ps2)
      | (.ok r, ps2) => parseAndLoop fuel (.logical e op r) ps2
    else (.ok e, ps1)

def parseEquality : Nat → PState → Except Unit Expr × PState
  | 0, ps => (.error (), ps)
  | fuel + 1, ps =>
    match parseComparison fuel ps with
    | (.error _, ps1) => (.error (), ps1)
    | (.ok e, ps1) => parseEqualityLoop fuel e ps1

def parseEqualityLoop : Nat → Expr → PState → Except Unit Expr × PState
  | 0, _, ps => (.error (), ps)
  | fuel + 1, e, ps =>
    let (m, ps1) := tryMatchAny ps [.bangEqual, .equalEqual]
    if m then
      let op := previousTok ps1
      match parseComparison fuel ps1 with
      | (.error _, ps2) => (.error (), ps2)
      | (.ok r, ps2) => parseEqualityLoop fuel (.binary e op r) ps2
    else (.ok e, ps1)

def parseComparison : Nat → PState → Except Unit Expr × PState
  | 0, ps => (.error (), ps)
  | fuel + 1, ps =>
    match parseTerm fuel ps with
    | (.error _, ps1) => (.error (), ps1)
    | (.ok e, ps1) => parseComparisonLoop fuel e ps1

def parseComparisonLoop : Nat → Expr → PState → Except Unit Expr × PState
  | 0, _, ps => (.error (), ps)
  | fuel + 1, e, ps =>
    let (m, ps1) := tryMatchAny ps [.greater, .greaterEqual, .less, .lessEqual]
    if m then
      let op := previousTok ps1
      match parseTerm fuel ps1 with
      | (.error _, ps2) => (.error (), ps2)
      | (.ok r, ps2) => parseComparisonLoop fuel (.binary e op r) ps2
    else (.ok e, ps1)

def parseTerm : Nat → PState → Except Unit Expr × PState
  | 0, ps => (.error (), ps)
  | fuel + 1, ps =>
    match parseFactor fuel ps with
    | (.error _, ps1) => (.error (), ps1)
    | (.ok e, ps1) => parseTermLoop fuel e ps1

def parseTermLoop : Nat → Expr → PState → Except Unit Expr × PState
  | 0, _, ps => (.error (), ps)
  | fuel + 1, e, ps =>
    let (m, ps1) := tryMatchAny ps [.minus, .plus]
    if m then
      let op := previousTok ps1
      match parseFactor fuel ps1 with
      | (.error _, ps2) => (.error (), ps2)
      | (.ok r, ps2) => parseTermLoop fuel (.binary e op r) ps2
    else (.ok e, ps1)

def parseFactor : Nat → PState → Except Unit Expr × PState
  | 0, ps => (.error (), ps)
  | fuel + 1, ps =>
    match parseUnary fuel ps with
    | (.error _, ps1) => (.error (), ps1)
    | (.ok e, ps1) => parseFactorLoop fuel e ps1

def parseFactorLoop : Nat → Expr → PState → Except Unit Expr × PState
  | 0, _, ps => (.error (), ps)
  | fuel + 1, e, ps =>
    let (m, ps1) := tryMatchAny ps [.star, .slash]
    if m then
      let op := previousTok ps1
      match parseUnary fuel ps1 with
      | (.error _, ps2) => (.error (), ps2)
      | (.ok r, ps2) => parseFactorLoop fuel (.binary e op r) ps2
    else (.ok e, ps1)

/-- `Parser.parse_unary`: `!`/`-` then unary, else primary — there is no
call production in this parser variant. -/
def parseUnary : Nat → PState → Except Unit Expr × PState
  | 0, ps => (.error (), ps)
  | fuel + 1, ps =>
    let (m, ps1) := tryMatchAny ps [.bang, .minus]
    if m then
      let op := previousTok ps1
      match parseUnary fuel ps1 with
      | (.error _, ps2) => (.error (), ps2)
      | (.ok r, ps2) => (.ok (.unary op r), ps2)
    else parsePrimary fuel ps1

/-- `Parser.parse_primary`: literals, identifiers and grouping — no
`this` and no anonymous `fun` in this parser variant. -/
def parsePrimary : Nat → PState → Except Unit Expr × PState
  | 0, ps => (.error (), ps)
  | fuel + 1, ps =>
    let (mT, ps1) := tryMatch ps .trueKw
    if mT then (.ok (.literal (.bool true)), ps1) else
    let (mF, ps2) := tryMatch ps1 .falseKw
    if mF then (.ok (.literal (.bool false)), ps2) else
    let (mN, ps3) := tryMatch ps2 .nilKw
    if mN then (.ok (.literal .nil), ps3) else
    let (mL, ps4) := tryMatchAny ps3 [.number, .stringTok]
    if mL then (.ok (.literal ((previousTok ps4).literal.getD .nil)), ps4) else
    let (mI, ps5) := tryMatch ps4 .identifier
    if mI then (.ok (.var (previousTok ps5)), ps5) else
    let (mP, ps6) := tryMatch ps5 .leftParen
    if mP then
      match parseExpression fuel ps6 with
      | (.error _, ps7) => (.error (), ps7)
      | (.ok e, ps7) =>
        match pconsume ps7 .rightParen "Expect ')' after expression." with
        | (.error _, ps8) => (.error (), ps8)
        | (.ok _, ps8) => (.ok (.grouping e), ps8)
    else (.error (), perror ps6 (peek ps6) "Expect expression.")

end

def parseProgramLoop : Nat → PState → List (Option Stmt) →
    List (Option Stmt) × PState
  | 0, ps, acc => (acc, ps)
  | fuel + 1, ps, acc =>
    if isAtEnd ps then (acc, ps)
    else
      let (d, ps1) := parseDeclaration fuel ps
      parseProgramLoop fuel ps1 (acc ++ [d])

/-- `Parser.parse`. -/
def parseProgram (fuel : Nat) (toks : List Token) :
    List (Option Stmt) × PState :=
  parseProgramLoop fuel ⟨toks, 0, []⟩ []

/-! ### The host driver (src/loxxx/lox.py, `Lox.run`) -/

/-- `Lox.run` from the token stream on.  After `parser.parse()` the
source iterates `parser.errors` — but the `Parser` class defines no
`errors` attribute anywhere (its `error` method reports straight to the
`Lox.error` sink), so every call of `run` raises `AttributeError`
directly after parsing: before the parse-error gate, before the
`Resolver` is constructed, and before any evaluation.  The model
performs the parse (whose diagnostics went to the host sink while
parsing) and then raises the host error, exactly as the source does;
the gating and interpreting code below that line in `run` is
unreachable. -/
def loxRun (fuel : Nat) (toks : List Token) (_st : St) (_replMode : Bool) :
    Except String Unit :=
  let _ := parseProgram fuel toks
  .error "AttributeError: 'Parser' object has no attribute 'errors'"

/-! ### Specification-side definitions (for comparison with the code) -/

/-- The cross-case equality rule the code actually implements, written
out value-by-value over literal operands: matching cases compare by
host value (`nil == nil` included), and the only cross-case equalities
are Bool against Number, where `true` counts as 1 and `false` as 0. -/
def amendedLitEq : LitVal → LitVal → Bool
  | .nil, .nil => true
  | .bool x, .bool y => x == y
  | .num x, .num y => x == y
  | .str x, .str y => x == y
  | .bool x, .num y => (if x then (1 : Rat) else 0) == y
  | .num x, .bool y => x == (if y then (1 : Rat) else 0)
  | _, _ => false

/-- The desugared statement the spec prescribes for
`for (init; cond; inc) body`: the `While` with the omitted condition
defaulting to `Literal(true)`, the increment appended in an inner block
when present, the initializer prepended in an outer block when
present. -/
def forDesugar (initializer : Option Stmt) (condition increment : Option Expr)
    (body : Stmt) : Stmt :=
  let inner :=
    match increment with
    | some inc => Stmt.block [body, .exprStmt inc]
    | none => body
  let w :=
    Stmt.whileStmt
      (match condition with
       | none => Expr.literal (.bool true)
       | some c => c) inner
  match initializer with
  | some i => Stmt.block [i, w]
  | none => w

/-! ### Concrete tokens and programs used by the theorems -/

def tkMinus : Token := ⟨.minus, "-", none, 1⟩
def tkBang : Token := ⟨.bang, "!", none, 1⟩
def tkEqEq : Token := ⟨.equalEqual, "==", none, 1⟩
def tkBangEq : Token := ⟨.bangEqual, "!=", none, 1⟩
def tkRP : Token := ⟨.rightParen, ")", none, 1⟩
def tkLP : Token := ⟨.leftParen, "(", none, 1⟩
def tkLB : Token := ⟨.leftBrace, "\x7b", none, 1⟩
def tkRB : Token := ⟨.rightBrace, "\x7d", none, 1⟩
def tkVar : Token := ⟨.varKw, "var", none, 1⟩
def tkSemi : Token := ⟨.semicolon, ";", none, 1⟩
def tkPrint : Token := ⟨.printKw, "print", none, 1⟩
def tkReturn : Token := ⟨.returnKw, "return", none, 1⟩
def tkFor : Token := ⟨.forKw, "for", none, 1⟩
def tkEof : Token := ⟨.eof, "", none, 1⟩
def tkEq : Token := ⟨.equal, "=", none, 1⟩
def tkA : Token := ⟨.identifier, "a", none, 1⟩
def tkX : Token := ⟨.identifier, "x", none, 1⟩
def tkJ : Token := ⟨.identifier, "j", none, 1⟩
def tkK : Token := ⟨.identifier, "k", none, 1⟩
def tkI : Token := ⟨.identifier, "i", none, 1⟩
def tkClock : Token := ⟨.identifier, "clock", none, 1⟩
def tkInit : Token := ⟨.identifier, "init", none, 1⟩
def tkN0 : Token := ⟨.number, "0", some (.num 0), 1⟩
def tkN1 : Token := ⟨.number, "1", some (.num 1), 1⟩
def tkN2 : Token := ⟨.number, "2", some (.num 2), 1⟩

/-- Tokens of `{ var a = 1; { var a = 2; print a; } }` — the inner use
of `a` under two nested declarations of the same name. -/
def shadowToks : List Token :=
  [tkLB, tkVar, tkA, tkEq, tkN1, tkSemi,
   tkLB, tkVar, tkA, tkEq, tkN2, tkSemi,
   tkPrint, tkA, tkSemi, tkRB, tkRB, tkEof]

/-- The statement `shadowToks` parses to. -/
def shadowStmt : Stmt :=
  .block [.varDecl tkA (some (.literal (.num 1))),
          .block [.varDecl tkA (some (.literal (.num 2))),
                  .printStmt (.var tkA)]]

/-- Tokens of `return;` — well-formed under the spec grammar's
`returnStmt` production. -/
def returnToks : List Token := [tkReturn, tkSemi, tkEof]

/-- Tokens of `{ var x = 1; }` — a local variable that is never
referenced, and no other static error. -/
def unusedToks : List Token := [tkLB, tkVar, tkX, tkEq, tkN1, tkSemi, tkRB, tkEof]

/-- A state whose globals hold `clock` and a variable `x = 0`. -/
def stx : St :=
  { frames := [⟨[("clock", .native), ("x", .num 0)], none⟩], insts := [],
    env := 0, globals := 0, locals := [], output := [], now := 0 }

/-- `x = 1` — an argument expression whose evaluation has a visible side
effect on the globals. -/
def argAssign : Expr := .assign tkX (.literal (.num 1))

/-- `clock(x = 1)` — one argument passed to the zero-arity native. -/
def clockCallExpr : Expr := .call (.var tkClock) tkRP [argAssign]

/-- The declaration of an `init() { return; }` method body. -/
def initDecl : FunctionDeclaration := .mk (some tkInit) [] [.returnStmt tkReturn none]

/-- A state with one empty environment and one instance of a class `A`
with no methods, used to exercise `Function.bind` and `Function.call`. -/
def stInst : St :=
  { frames := [⟨[], none⟩], insts := [⟨⟨"A", []⟩, []⟩],
    env := 0, globals := 0, locals := [], output := [], now := 0 }


/-- Tokens of `for (var i = 0; j; k) print i;` — all three clauses
present. -/
def forFullToks : List Token :=
  [tkFor, tkLP, tkVar, tkI, tkEq, tkN0, tkSemi, tkJ, tkSemi, tkK, tkRP,
   tkPrint, tkI, tkSemi, tkEof]

/-- Tokens of `for (;;) print 1;` — all three clauses omitted. -/
def forBareToks : List Token :=
  [tkFor, tkLP, tkSemi, tkSemi, tkRP, tkPrint, tkN1, tkSemi, tkEof]

/-- The parse of `unusedToks`. -/
def unusedStmts : List (Option Stmt) :=
  [some (.block [.varDecl tkX (some (.literal (.num 1)))])]

/-- The resolver state `Resolver.run` leaves for `unusedToks`: no open
scope, the unused-variable diagnostic, an empty locals table. -/
def unusedRS : RState := ⟨[], [(tkX, "A variable is never used")], [], .NONE⟩

/-- `stx` after the global `x` has been assigned 1. -/
def stxAfter : St :=
  { stx with frames := [⟨[("clock", .native), ("x", .num 1)], none⟩] }

/-- `stInst` after binding an initializer to instance 0: the fresh
bind frame holding `this`. -/
def stBound : St :=
  { stInst with frames := [⟨[], none⟩, ⟨[("this", .inst 0)], some 0⟩] }

/-- `stBound` after `Function.call` has added the call frame for the
initializer body. -/
def stAfterInit : St :=
  { stBound with frames := stBound.frames ++ [⟨[], some 1⟩] }

/-! ### Helper lemmas: a stored value is readable back -/

theorem assocGet?_assocSet (l : List (String × Value)) (n : String) (v : Value) :
    assocGet? (assocSet l n v) n = some v := by
  induction l with
  | nil => simp [assocSet, assocGet?]
  | cons p ps ih =>
    by_cases h : p.1 = n
    · simp [assocSet, h, assocGet?]
    · simpa [assocSet, h, assocGet?, List.find?] using ih

theorem frameGet?_frameSet (f : Frame) (n : String) (v : Value) :
    frameGet? (frameSet f n v) n = some v := by
  simp [frameGet?, frameSet, assocGet?_assocSet]

theorem frameSet_outer (f : Frame) (n : String) (v : Value) :
    (frameSet f n v).outer = f.outer := rfl

theorem updFrame_get_self (frames : List Frame) (i : Nat) (g : Frame → Frame)
    (f : Frame) (h : frames[i]? = some f) :
    (updFrame frames i g)[i]? = some (g f) := by
  have hi : i < frames.length := by
    by_contra hc
    simp [List.getElem?_eq_none (le_of_not_lt hc)] at h
  simp [updFrame, h, List.getElem?_set_self, hi]

theorem updFrame_get_ne (frames : List Frame) (i j : Nat) (g : Frame → Frame)
    (h : j ≠ i) : (updFrame frames i g)[j]? = frames[j]? := by
  unfold updFrame
  match hf : frames[i]? with
  | none => rfl
  | some f => simp [List.getElem?_set_ne (fun hij => h hij.symm)]

/-- The frames `envAssign` can produce: every slot is either untouched
or has the assigned name freshly set. -/
theorem envAssign_frames_shape :
    ∀ (fuel : Nat) (frames : List Frame) (i : Nat) (name : Token) (v : Value)
      (frames' : List Frame),
      envAssign fuel frames i name v = .ok frames' →
      ∀ k : Nat, frames'[k]? = frames[k]? ∨
        ∃ g, frames[k]? = some g ∧ frames'[k]? = some (frameSet g name.lexeme v) := by
  intro fuel
  induction fuel with
  | zero =>
    intro frames i name v frames' h
    simp [envAssign] at h
  | succ n ih =>
    intro frames i name v frames' h k
    unfold envAssign at h
    split at h
    · exact absurd h (by simp)
    · rename_i f hf
      split at h
      · cases h
        by_cases hk : k = i
        · subst hk
          exact Or.inr ⟨f, hf, updFrame_get_self frames k _ f hf⟩
        · exact Or.inl (updFrame_get_ne frames i k _ hk)
      · split at h
        · exact ih frames _ name v frames' h k
        · exact absurd h (by simp)

theorem find?_eq_none_of_not_any {α : Type} (p : α → Bool) (l : List α)
    (h : l.any p = false) : l.find? p = none := by
  rw [List.find?_eq_none]
  intro x hx
  intro hpx
  rw [List.any_eq_false] at h
  exact h x hx (by simpa using hpx)

/-- After a successful `Environment.assign`, `Environment.get` of the
same name from the same environment answers the assigned value. -/
theorem envAssign_envGet :
    ∀ (fuel : Nat) (frames : List Frame) (i : Nat) (name : Token) (v : Value)
      (frames' : List Frame),
      envAssign fuel frames i name v = .ok frames' →
      envGet fuel frames' i name = .ok v := by
  intro fuel
  induction fuel with
  | zero =>
    intro frames i name v frames' h
    simp [envAssign] at h
  | succ n ih =>
    intro frames i name v frames' h
    unfold envAssign at h
    split at h
    · exact absurd h (by simp)
    · rename_i f hf
      split at h
      · rename_i hm
        cases h
        have h1 := updFrame_get_self frames i (fun g => frameSet g name.lexeme v) f hf
        simp [envGet, h1, frameGet?_frameSet]
      · rename_i hm
        split at h
        · rename_i o ho
          have hget := ih frames o name v frames' h
          have hshape := envAssign_frames_shape n frames o name v frames' h i
          rcases hshape with hsame | ⟨g, hg, hg'⟩
          · have hm' : (f.values.any fun p => decide (p.1 = name.lexeme)) = false := by
              cases hx : (f.values.any fun p => decide (p.1 = name.lexeme)) with
              | false => rfl
              | true => exact absurd hx hm
            have hnone : frameGet? f name.lexeme = none := by
              simp only [frameGet?, assocGet?]
              rw [find?_eq_none_of_not_any _ _ hm']
              rfl
            simp [envGet, hsame, hf, hnone, ho, hget]
          · rw [hg] at hf
            cases hf
            simp [envGet, hg', frameGet?_frameSet]
        · exact absurd h (by simp)

/-- `findAncestor` only reads the spine of `outer` links, which
`assign_at`'s frame update preserves. -/
theorem findAncestor_updFrame_frameSet (d : Nat) (frames : List Frame)
    (i j : Nat) (n : String) (v : Value) :
    findAncestor d (updFrame frames j (fun g => frameSet g n v)) i =
      findAncestor d frames i := by
  induction d generalizing i with
  | zero => rfl
  | succ m ih =>
    by_cases hj : i = j
    · subst hj
      cases hf : frames[i]? with
      | none => simp [findAncestor, updFrame, hf]
      | some f =>
        have h1 := updFrame_get_self frames i (fun g => frameSet g n v) f hf
        simp only [findAncestor, h1, hf, frameSet_outer]
        cases ho : f.outer with
        | none => simp [ho]
        | some o => simp [ho, ih]
    · have h1 := updFrame_get_ne frames j i (fun g => frameSet g n v) hj
      cases hf : frames[i]? with
      | none => simp [findAncestor, h1, hf]
      | some f =>
        cases ho : f.outer with
        | none => simp [findAncestor, h1, hf, ho]
        | some o => simp [findAncestor, h1, hf, ho, ih]

/-- After a successful `Environment.assign_at`, `Environment.get_at` at
the same distance and name answers the assigned value, provided the
target frame exists (it always does in stores reachable from `initSt`;
dangling ancestor ids are a model-level artifact of the frame store). -/
theorem assignAt_getAt (d : Nat) (frames : List Frame) (i : Nat)
    (name : Token) (v : Value) (frames' : List Frame)
    (h : assignAt d frames i name v = .ok frames')
    (a : Nat) (ha : findAncestor d frames i = some a)
    (f : Frame) (hf : frames[a]? = some f) :
    getAt d frames' i name.lexeme = .ok v := by
  unfold assignAt at h
  rw [ha] at h
  cases h
  have h1 := updFrame_get_self frames a (fun g => frameSet g name.lexeme v) f hf
  rw [getAt, findAncestor_updFrame_frameSet, ha]
  simp [h1, frameGet?_frameSet]

/-- After `Instance.set`, reading the same field back answers the
assigned value. -/
theorem instSet_get (st : St) (id : Nat) (name : Token) (v : Value)
    (dta : InstData) (h : st.insts[id]? = some dta) :
    ∃ dta', (instSet st id name v).insts[id]? = some dta' ∧
      assocGet? dta'.fields name.lexeme = some v := by
  have hi : id < st.insts.length := by
    by_contra hc
    simp [List.getElem?_eq_none (le_of_not_lt hc)] at h
  refine ⟨{ dta with fields := assocSet dta.fields name.lexeme v }, ?_, ?_⟩
  · simp [instSet, h, List.getElem?_set_self, hi]
  · exact assocGet?_assocSet _ _ _

/-! ### Claim theorems -/

/-- C1: the claim says `-x` requires a Number and returns its negation,
raising a runtime error on non-Numbers.  The code's
`_validate_number_operand` has the test inverted — it raises exactly
when the operand IS a Number — so evaluating `-1` raises the runtime
error `Operand must be a number.` (first conjunct), against the claim.
The `!` half of the claim does hold (second conjunct: `!nil` is the
negated truthiness `true`). -/
theorem unary_minus_on_number_raises :
    evaluate 10 (.unary tkMinus (.literal (.num 1))) initSt
        = (.error (.runtime tkMinus "Operand must be a number."), initSt)
    ∧ evaluate 10 (.unary tkBang (.literal .nil)) initSt
        = (.ok (.bool true), initSt) :=
  ⟨rfl, rfl⟩

/-- C2: the claim says the resolver records the distance of the
innermost enclosing scope declaring the name, so a shadowed use reads
the inner binding.  `_resolve_local` has no `break` (its own TODO
comment admits it), so the LAST hit — the outermost declaring scope —
wins.  On `{ var a = 1; { var a = 2; print a; } }` (whose parse the
first conjunct pins) the locals side-table maps the use of `a` to
distance 1 (the outer block) instead of 0, and the evaluator, run
directly on the statements with that side-table (the resolver writes it
into the interpreter; the host driver `Lox.run` itself crashes at the
nonexistent `parser.errors` before composing them — see `loxRun`),
reads the OUTER binding and prints `1` where the claim requires the
inner one (`2`). -/
theorem resolver_records_outermost_distance :
    ((parseProgram 100 shadowToks).1 = [some shadowStmt]
      ∧ (parseProgram 100 shadowToks).2.errors = [])
    ∧ (match resolverRun 100 [shadowStmt] with
       | .ok rs => localsGet? 100 rs.locals (.var tkA)
       | .error _ => none) = some 1
    ∧ (match resolverRun 100 [shadowStmt] with
       | .ok rs => (interpret 100 [shadowStmt]
           { initSt with locals := rs.locals }).2.output
       | .error _ => []) = ["1"] :=
  ⟨⟨rfl, rfl⟩, by decide, by decide⟩

/-- C3: the claim says every token list well-formed under the spec
grammar — including `return` statements, class and `fun` declarations
and call expressions — parses with an empty diagnostics list.  The
parser in the tree has none of those productions: on the well-formed
program `return;` it records the syntax error `Expect expression.`
against the `return` keyword and yields a `None` statement. -/
theorem return_statement_is_syntax_error :
    parseProgram 30 returnToks
      = ([none], ⟨returnToks, 2, [(tkReturn, "Expect expression.")]⟩) :=
  rfl

/-- C4 counterexample: the claim says arguments are evaluated (with
their side effects) before the arity comparison.  Calling the 0-arity
`clock` as `clock(x = 1)` raises the arity error with the state
entirely unchanged — the argument's assignment to the global `x` never
happened (`x` still reads 0), refuting the claim at this input. -/
theorem arity_error_before_argument_effects :
    evaluate 50 clockCallExpr stx
        = (.error (.runtime tkRP "Expected 0 arguments but got 1."), stx)
    ∧ envGet 10 stx.frames stx.globals tkX = .ok (.num 0) :=
  ⟨rfl, rfl⟩

/-- C4 amended: when the callee evaluates to a callable whose arity
differs from the argument count, the runtime error is raised directly
after the callee evaluation — before any argument is evaluated, so no
argument side effects occur at all. -/
theorem call_arity_checked_before_arguments (fuel : Nat) (callee : Expr)
    (paren : Token) (args : List Expr) (st s1 : St) (c : Value)
    (hc : evaluate fuel callee st = (.ok c, s1))
    (hcall : isCallable c = true)
    (hn : args.length ≠ arityOf c) :
    evaluate (fuel + 1) (.call callee paren args) st
      = (.error (.runtime paren ("Expected " ++ toString (arityOf c) ++
          " arguments but got " ++ toString args.length ++ ".")), s1) := by
  simp [evaluate, hc, hcall, hn]

/-- C4 amended, witness: the amended rule at the concrete call
`clock(x = 1)`. -/
theorem call_arity_checked_before_arguments_witness :
    evaluate 50 clockCallExpr stx
      = (.error (.runtime tkRP "Expected 0 arguments but got 1."), stx) := by
  exact call_arity_checked_before_arguments 49 (.var tkClock) tkRP [argAssign]
    stx stx .native rfl rfl (by decide)

/-- C5 counterexample: the claim says values of different `LoxValue`
cases — such as `true` and `1` — compare unequal.  The code compares
with the host's `==`, under which a Bool is a number, so `true == 1`
evaluates to `true`, refuting the claim at this input. -/
theorem bool_number_equality_counterexample :
    evaluate 10 (.binary (.literal (.bool true)) tkEqEq (.literal (.num 1))) initSt
      = (.ok (.bool true), initSt) :=
  rfl

/-- C5 amended: within matching cases equality is host-value equality
(`nil == nil` is true) and `!=` is its negation; across cases values
are unequal EXCEPT Bool against Number, which compare numerically with
`true` as 1 and `false` as 0. -/
theorem equality_follows_host_numeric_rule (a b : LitVal) (st : St) (fuel : Nat) :
    evaluate (fuel + 2) (.binary (.literal a) tkEqEq (.literal b)) st
      = (.ok (.bool (amendedLitEq a b)), st)
    ∧ evaluate (fuel + 2) (.binary (.literal a) tkBangEq (.literal b)) st
      = (.ok (.bool (!amendedLitEq a b)), st) := by
  have h : pyEq (fuel + 2) (valOfLit a) (valOfLit b) = amendedLitEq a b :=
    match a, b with
    | .nil, .nil => rfl
    | .nil, .bool _ => rfl
    | .nil, .num _ => rfl
    | .nil, .str _ => rfl
    | .bool _, .nil => rfl
    | .bool x, .bool y => by cases x <;> cases y <;> rfl
    | .bool _, .num _ => rfl
    | .bool _, .str _ => rfl
    | .num _, .nil => rfl
    | .num _, .bool _ => rfl
    | .num _, .num _ => rfl
    | .num _, .str _ => rfl
    | .str _, .nil => rfl
    | .str _, .bool _ => rfl
    | .str _, .num _ => rfl
    | .str _, .str _ => rfl
  constructor
  · show (Except.ok (Value.bool (pyEq (fuel + 2) (valOfLit a) (valOfLit b))), st) = _
    rw [h]
  · show (Except.ok (Value.bool (!pyEq (fuel + 2) (valOfLit a) (valOfLit b))), st) = _
    rw [h]

/-- C6 counterexample: the claim says a REPL line holding one
expression statement prints the same stringification `print` uses (so
`nil` prints `nil` and the number 3 prints `3`).  `interpret_repl`
hands the raw value to the host's `print`, which renders `None` and
`3.0` — not the `_stringify` renderings `nil` and `3`. -/
theorem repl_prints_host_repr :
    interpretRepl 10 [.exprStmt (.literal .nil)] initSt
        = (.ok (), { initSt with output := ["None"] })
    ∧ stringifyIn initSt Value.nil = "nil"
    ∧ interpretRepl 10 [.exprStmt (.literal (.num 3))] initSt
        = (.ok (), { initSt with output := ["3.0"] })
    ∧ stringifyIn initSt (Value.num 3) = "3" :=
  ⟨rfl, rfl, rfl, by decide⟩

/-- C6 amended: a REPL line that parses to exactly one expression
statement evaluates the expression and prints the host's default
rendering `str(value)` of the result (`nil` prints `None`, the number 3
prints `3.0`), not the `print`-statement stringification. -/
theorem repl_single_expression_prints_value (fuel : Nat) (e : Expr)
    (st s1 : St) (v : Value)
    (h : evaluate fuel e st = (.ok v, s1)) :
    interpretRepl fuel [.exprStmt e] st
      = (.ok (), { s1 with output := s1.output ++ [pyStr v] }) := by
  simp [interpretRepl, h]

/-- C6 amended, witness: the amended rule at the concrete REPL line
`nil`. -/
theorem repl_single_expression_prints_value_witness :
    interpretRepl 10 [.exprStmt (.literal .nil)] initSt
      = (.ok (), { initSt with output := initSt.output ++ [pyStr .nil] }) :=
  repl_single_expression_prints_value 10 (.literal .nil) initSt initSt .nil rfl

/-- Helper: the tail of `parse_for_statement` after both remaining
clause states are fixed assembles exactly the desugared statement. -/
theorem parseFor_assemble (fuel : Nat) (s : Stmt) (ps' : PState)
    (ini : Option Stmt) (condOpt incOpt : Option Expr) (psC : PState)
    (h : (match pconsume psC .rightParen "Expect ')' after for clauses." with
          | (.error _, ps8) => ((Except.error () : Except Unit Stmt), ps8)
          | (.ok _, ps8) =>
            match parseStatement fuel ps8 with
            | (.error _, ps9) => (.error (), ps9)
            | (.ok body0, ps9) =>
              let body1 :=
                match incOpt with
                | some inc => Stmt.block [body0, .exprStmt inc]
                | none => body0
              let cond :=
                match condOpt with
                | none => Expr.literal (.bool true)
                | some c => c
              let body2 := Stmt.whileStmt cond body1
              let body3 :=
                match ini with
                | some i => Stmt.block [i, body2]
                | none => body2
              (.ok body3, ps9)) = (.ok s, ps')) :
    ∃ initializer condition increment body,
      s = forDesugar initializer condition increment body := by
  rcases hq6 : pconsume psC .rightParen "Expect ')' after for clauses." with ⟨r6, ps8⟩
  rw [hq6] at h
  cases r6 with
  | error e6 => simp at h
  | ok tk6 =>
    try dsimp only at h
    rcases hq7 : parseStatement fuel ps8 with ⟨r7, ps9⟩
    rw [hq7] at h
    cases r7 with
    | error e7 => simp at h
    | ok body0 =>
      try dsimp only at h
      simp only [Prod.mk.injEq, Except.ok.injEq] at h
      obtain ⟨h1, h2⟩ := h
      subst h1
      exact ⟨ini, condOpt, incOpt, body0, rfl⟩

set_option maxHeartbeats 1000000 in
/-- Helper: the tail of `parse_for_statement` after the condition
clause. -/
theorem parseFor_after_cond (fuel : Nat) (s : Stmt) (ps' : PState)
    (ini : Option Stmt) (condOpt : Option Expr) (psB : PState)
    (h : (match pconsume psB .semicolon "Expect ';' after loop condition." with
          | (.error _, ps6) => ((Except.error () : Except Unit Stmt), ps6)
          | (.ok _, ps6) =>
            match
              (if !pcheck ps6 .rightParen then
                match parseExpression fuel ps6 with
                | (.error _, ps7) => ((Except.error () : Except Unit (Option Expr)), ps7)
                | (.ok i, ps7) => (.ok (some i), ps7)
              else (.ok none, ps6)) with
            | (incRes, psC) =>
              match incRes with
              | .error _ => (.error (), psC)
              | .ok increment =>
                match pconsume psC .rightParen "Expect ')' after for clauses." with
                | (.error _, ps8) => (.error (), ps8)
                | (.ok _, ps8) =>
                  match parseStatement fuel ps8 with
                  | (.error _, ps9) => (.error (), ps9)
                  | (.ok body0, ps9) =>
                    let body1 :=
                      match increment with
                      | some inc => Stmt.block [body0, .exprStmt inc]
                      | none => body0
                    let cond :=
                      match condOpt with
                      | none => Expr.literal (.bool true)
                      | some c => c
                    let body2 := Stmt.whileStmt cond body1
                    let body3 :=
                      match ini with
                      | some i => Stmt.block [i, body2]
                      | none => body2
                    (.ok body3, ps9)) = (.ok s, ps')) :
    ∃ initializer condition increment body,
      s = forDesugar initializer condition increment body := by
  rcases hq4 : pconsume psB .semicolon "Expect ';' after loop condition." with ⟨r4, ps6⟩
  rw [hq4] at h
  cases r4 with
  | error e4 => simp at h
  | ok tk4 =>
    try dsimp only at h
    cases hpr : pcheck ps6 .rightParen with
    | true =>
      rw [hpr] at h
      try dsimp only at h
      exact parseFor_assemble fuel s ps' ini condOpt none ps6 h
    | false =>
      rw [hpr] at h
      try dsimp only at h
      rcases hq8 : parseExpression fuel ps6 with ⟨r8, ps7⟩
      rw [hq8] at h
      cases r8 with
      | error e8 => simp at h
      | ok i8 =>
        try dsimp only at h
        exact parseFor_assemble fuel s ps' ini condOpt (some i8) ps7 h

set_option maxHeartbeats 1000000 in
/-- Helper: the tail of `parse_for_statement` after the initializer
clause. -/
theorem parseFor_after_init (fuel : Nat) (s : Stmt) (ps' : PState)
    (ini : Option Stmt) (psA : PState)
    (h : (match
            (if !pcheck psA .semicolon then
              match parseExpression fuel psA with
              | (.error _, ps5) => ((Except.error () : Except Unit (Option Expr)), ps5)
              | (.ok c, ps5) => (.ok (some c), ps5)
            else (.ok none, psA)) with
          | (condRes, psB) =>
            match condRes with
            | .error _ => ((Except.error () : Except Unit Stmt), psB)
            | .ok condition =>
              match pconsume psB .semicolon "Expect ';' after loop condition." with
              | (.error _, ps6) => (.error (), ps6)
              | (.ok _, ps6) =>
                match
                  (if !pcheck ps6 .rightParen then
                    match parseExpression fuel ps6 with
                    | (.error _, ps7) => ((Except.error () : Except Unit (Option Expr)), ps7)
                    | (.ok i, ps7) => (.ok (some i), ps7)
                  else (.ok none, ps6)) with
                | (incRes, psC) =>
                  match incRes with
                  | .error _ => (.error (), psC)
                  | .ok increment =>
                    match pconsume psC .rightParen "Expect ')' after for clauses." with
                    | (.error _, ps8) => (.error (), ps8)
                    | (.ok _, ps8) =>
                      match parseStatement fuel ps8 with
                      | (.error _, ps9) => (.error (), ps9)
                      | (.ok body0, ps9) =>
                        let body1 :=
                          match increment with
                          | some inc => Stmt.block [body0, .exprStmt inc]
                          | none => body0
                        let cond :=
                          match condition with
                          | none => Expr.literal (.bool true)
                          | some c => c
                        let body2 := Stmt.whileStmt cond body1
                        let body3 :=
                          match ini with
                          | some i => Stmt.block [i, body2]
                          | none => body2
                        (.ok body3, ps9)) = (.ok s, ps')) :
    ∃ initializer condition increment body,
      s = forDesugar initializer condition increment body := by
  cases hpc : pcheck psA .semicolon with
  | true =>
    rw [hpc] at h
    try dsimp only at h
    exact parseFor_after_cond fuel s ps' ini none psA h
  | false =>
    rw [hpc] at h
    try dsimp only at h
    rcases hq5 : parseExpression fuel psA with ⟨r5, ps5⟩
    rw [hq5] at h
    cases r5 with
    | error e5 => simp at h
    | ok c5 =>
      try dsimp only at h
      exact parseFor_after_cond fuel s ps' ini (some c5) ps5 h

set_option maxHeartbeats 1000000 in
/-- Helper: any successful run of the body of `parse_for_statement`
yields a statement of the desugared shape. -/
theorem parseFor_body_shape (fuel : Nat) (ps ps' : PState) (s : Stmt)
    (h : ((
    match pconsume ps .leftParen "Expect '(' after 'for'." with
    | (.error _, ps1) => (.error (), ps1)
    | (.ok _, ps1) =>
      let (mSemi, ps2) := tryMatch ps1 .semicolon
      let (initRes, psA) :=
        if mSemi then ((Except.ok none : Except Unit (Option Stmt)), ps2)
        else
          let (mVar, ps3) := tryMatch ps2 .varKw
          if mVar then
            match parseVarDeclaration fuel ps3 with
            | (.error _, ps4) => (.error (), ps4)
            | (.ok s, ps4) => (.ok (some s), ps4)
          else
            match parseExpressionStatement fuel ps3 with
            | (.error _, ps4) => (.error (), ps4)
            | (.ok s, ps4) => (.ok (some s), ps4)
      match initRes with
      | .error _ => (.error (), psA)
      | .ok initializer =>
        let (condRes, psB) :=
          if !pcheck psA .semicolon then
            match parseExpression fuel psA with
            | (.error _, ps5) => ((Except.error () : Except Unit (Option Expr)), ps5)
            | (.ok c, ps5) => (.ok (some c), ps5)
          else (.ok none, psA)
        match condRes with
        | .error _ => (.error (), psB)
        | .ok condition =>
          match pconsume psB .semicolon "Expect ';' after loop condition." with
          | (.error _, ps6) => (.error (), ps6)
          | (.ok _, ps6) =>
            let (incRes, psC) :=
              if !pcheck ps6 .rightParen then
                match parseExpression fuel ps6 with
                | (.error _, ps7) => ((Except.error () : Except Unit (Option Expr)), ps7)
                | (.ok i, ps7) => (.ok (some i), ps7)
              else (.ok none, ps6)
            match incRes with
            | .error _ => (.error (), psC)
            | .ok increment =>
              match pconsume psC .rightParen "Expect ')' after for clauses." with
              | (.error _, ps8) => (.error (), ps8)
              | (.ok _, ps8) =>
                match parseStatement fuel ps8 with
                | (.error _, ps9) => (.error (), ps9)
                | (.ok body0, ps9) =>
                  let body1 :=
                    match increment with
                    | some inc => Stmt.block [body0, .exprStmt inc]
                    | none => body0
                  let cond :=
                    match condition with
                    | none => Expr.literal (.bool true)
                    | some c => c
                  let body2 := Stmt.whileStmt cond body1
                  let body3 :=
                    match initializer with
                    | some i => Stmt.block [i, body2]
                    | none => body2
                  (.ok body3, ps9) : Except Unit Stmt × PState)) = (.ok s, ps')) :
    ∃ initializer condition increment body,
      s = forDesugar initializer condition increment body := by
  rcases hq1 : pconsume ps .leftParen "Expect '(' after 'for'." with ⟨r1, ps1⟩
  rw [hq1] at h
  cases r1 with
  | error e1 => simp at h
  | ok tk1 =>
    try dsimp only at h
    rcases hq2 : tryMatch ps1 .semicolon with ⟨mSemi, ps2⟩
    rw [hq2] at h
    cases mSemi with
    | true =>
      try dsimp only at h
      exact parseFor_after_init fuel s ps' none ps2 h
    | false =>
      try dsimp only at h
      rcases hq3 : tryMatch ps2 .varKw with ⟨mVar, ps3⟩
      rw [hq3] at h
      cases mVar with
      | true =>
        try dsimp only at h
        rcases hq4 : parseVarDeclaration fuel ps3 with ⟨r4, ps4⟩
        rw [hq4] at h
        cases r4 with
        | error e4 => simp at h
        | ok s4 =>
          try dsimp only at h
          exact parseFor_after_init fuel s ps' (some s4) ps4 h
      | false =>
        try dsimp only at h
        rcases hq5 : parseExpressionStatement fuel ps3 with ⟨r5, ps5⟩
        rw [hq5] at h
        cases r5 with
        | error e5 => simp at h
        | ok s5 =>
          try dsimp only at h
          exact parseFor_after_init fuel s ps' (some s5) ps5 h

/-- C7: every `for` statement parses to exactly the desugared AST
`Block([init, While(cond, Block([body, Expression(inc)]))])`, where an
omitted initializer drops the outer Block, an omitted increment drops
the inner Block and an omitted condition becomes `Literal(true)` (the
shape captured by `forDesugar`); no `for` node appears in the AST (the
`Stmt` inductive taken from the source has no `for` constructor).  The
closed conjuncts pin the two extreme clause combinations on concrete
token lists. -/
theorem for_statement_desugars (fuel : Nat) (ps ps' : PState) (s : Stmt)
    (h : parseForStatement (fuel + 1) ps = (.ok s, ps')) :
    (∃ initializer condition increment body,
        s = forDesugar initializer condition increment body)
    ∧ parseStatement 50 ⟨forFullToks, 0, []⟩
        = (.ok (forDesugar (some (.varDecl tkI (some (.literal (.num 0)))))
            (some (.var tkJ)) (some (.var tkK)) (.printStmt (.var tkI))),
           ⟨forFullToks, 14, []⟩)
    ∧ parseStatement 50 ⟨forBareToks, 0, []⟩
        = (.ok (forDesugar none none none (.printStmt (.literal (.num 1)))),
           ⟨forBareToks, 8, []⟩) :=
  ⟨parseFor_body_shape fuel ps ps' s h, rfl, rfl⟩

/-- C7, witness: the desugaring theorem applied at the concrete
`for (;;) print 1;`. -/
theorem for_statement_desugars_witness :
    ∃ initializer condition increment body,
      forDesugar none none none (.printStmt (.literal (.num 1)))
        = forDesugar initializer condition increment body :=
  (for_statement_desugars 49 ⟨forBareToks, 1, []⟩ ⟨forBareToks, 8, []⟩
      (forDesugar none none none (.printStmt (.literal (.num 1)))) rfl).1

set_option maxHeartbeats 1000000 in
/-- C9: every Assign expression evaluates to the evaluated right-hand
side after it has been stored through the distance rule (a locals hit
stores via `assign_at` on the current environment, a miss via
`globals.assign`), and every Set expression evaluates to the evaluated
value after it has been stored in the instance's fields; in each case
reading the target back yields exactly that value (for the `assign_at`
branch, whenever the ancestor frame exists, which it always does in
reachable stores). -/
theorem assignment_stores_then_returns :
    (∀ (fuel : Nat) (name : Token) (value : Expr) (st : St) (v : Value) (s2 : St),
      evaluate (fuel + 1) (.assign name value) st = (.ok v, s2) →
      ∃ s1, evaluate fuel value st = (.ok v, s1) ∧
        ((∃ d frames', localsGet? (fuel + 1) s1.locals (.assign name value) = some d ∧
            assignAt d s1.frames s1.env name v = .ok frames' ∧
            s2 = { s1 with frames := frames' } ∧
            (∀ a f, findAncestor d s1.frames s1.env = some a →
              s1.frames[a]? = some f →
              getAt d frames' s1.env name.lexeme = .ok v))
         ∨ (∃ frames', localsGet? (fuel + 1) s1.locals (.assign name value) = none ∧
            envAssign (fuel + 1) s1.frames s1.globals name v = .ok frames' ∧
            s2 = { s1 with frames := frames' } ∧
            envGet (fuel + 1) frames' s1.globals name = .ok v)))
    ∧ (∀ (fuel : Nat) (obj : Expr) (name : Token) (value : Expr) (st : St)
        (v : Value) (s3 : St),
      evaluate (fuel + 1) (.set obj name value) st = (.ok v, s3) →
      ∃ s1 id s2, evaluate fuel obj st = (.ok (.inst id), s1) ∧
        evaluate fuel value s1 = (.ok v, s2) ∧
        s3 = instSet s2 id name v ∧
        (∀ dta, s2.insts[id]? = some dta →
          ∃ dta', s3.insts[id]? = some dta' ∧
            assocGet? dta'.fields name.lexeme = some v)) := by
  constructor
  · intro fuel name value st v s2 h
    unfold evaluate at h
    try dsimp only at h
    rcases hv : evaluate fuel value st with ⟨rv, s1⟩
    rw [hv] at h
    cases rv with
    | error err => simp at h
    | ok v0 =>
      try dsimp only at h
      cases hl : localsGet? (fuel + 1) s1.locals (.assign name value) with
      | some d =>
        rw [hl] at h
        try dsimp only at h
        cases ha : assignAt d s1.frames s1.env name v0 with
        | ok frames' =>
          rw [ha] at h
          try dsimp only at h
          simp only [Prod.mk.injEq, Except.ok.injEq] at h
          obtain ⟨hveq, hs⟩ := h
          subst hveq
          refine ⟨s1, rfl, Or.inl ⟨d, frames', hl, ha, hs.symm, ?_⟩⟩
          intro a f hfa hf
          exact assignAt_getAt d s1.frames s1.env name v0 frames' ha a hfa f hf
        | error err =>
          rw [ha] at h
          simp at h
      | none =>
        rw [hl] at h
        try dsimp only at h
        cases ha : envAssign (fuel + 1) s1.frames s1.globals name v0 with
        | ok frames' =>
          rw [ha] at h
          try dsimp only at h
          simp only [Prod.mk.injEq, Except.ok.injEq] at h
          obtain ⟨hveq, hs⟩ := h
          subst hveq
          exact ⟨s1, rfl, Or.inr ⟨frames', hl, ha, hs.symm,
            envAssign_envGet (fuel + 1) s1.frames s1.globals name v0 frames' ha⟩⟩
        | error err =>
          rw [ha] at h
          simp at h
  · intro fuel obj name value st v s3 h
    unfold evaluate at h
    try dsimp only at h
    rcases hobj : evaluate fuel obj st with ⟨ro, s1⟩
    rw [hobj] at h
    cases ro with
    | error err => simp at h
    | ok ov =>
      try dsimp only at h
      cases ov
      case inst id =>
        try dsimp only at h
        rcases hval : evaluate fuel value s1 with ⟨rv, s2⟩
        rw [hval] at h
        cases rv with
        | error err => simp at h
        | ok v0 =>
          try dsimp only at h
          simp only [Prod.mk.injEq, Except.ok.injEq] at h
          obtain ⟨hveq, hs⟩ := h
          subst hveq
          subst hs
          refine ⟨s1, id, s2, rfl, hval, rfl, ?_⟩
          intro dta hdta
          exact instSet_get s2 id name v0 dta hdta
      all_goals (try dsimp only at h; simp at h)

/-- C9, witness: the Assign half at the concrete global assignment
`x = 1`. -/
theorem assignment_stores_then_returns_witness :
    ∃ s1, evaluate 49 (.literal (.num 1)) stx = (.ok (.num 1), s1) ∧
      ((∃ d frames',
          localsGet? 50 s1.locals (.assign tkX (.literal (.num 1))) = some d ∧
          assignAt d s1.frames s1.env tkX (.num 1) = .ok frames' ∧
          stxAfter = { s1 with frames := frames' } ∧
          (∀ a f, findAncestor d s1.frames s1.env = some a →
            s1.frames[a]? = some f →
            getAt d frames' s1.env tkX.lexeme = .ok (.num 1)))
       ∨ (∃ frames',
          localsGet? 50 s1.locals (.assign tkX (.literal (.num 1))) = none ∧
          envAssign 50 s1.frames s1.globals tkX (.num 1) = .ok frames' ∧
          stxAfter = { s1 with frames := frames' } ∧
          envGet 50 frames' s1.globals tkX = .ok (.num 1))) :=
  assignment_stores_then_returns.1 49 tkX (.literal (.num 1)) stx (.num 1)
    stxAfter rfl

set_option maxHeartbeats 1000000 in
/-- C8: the invocation protocol of `Function.bind` and `Function.call`:
binding to an instance preserves `is_initializer` and creates a closure
whose `this` at distance 0 is that instance; calling an initializer
answers `closure.get_at(0, "this")` regardless of whether the body
completes normally or unwinds with a (bare) `return`, so a bound
initializer returns the bound instance; calling a non-initializer
answers `Nil` on normal completion and the carried value on a `Return`
unwind. -/
theorem function_call_initializer_protocol (fuel : Nat) (f : FnData) (args : List Value) (st : St) (instId : Nat) :
    ((bindFn f instId st).1.isInitializer = f.isInitializer
      ∧ getAt 0 (bindFn f instId st).2.frames (bindFn f instId st).1.closure "this"
          = .ok (.inst instId))
    ∧ (∀ (r : Except RtErr Unit) (s' : St),
        executeBlock fuel f.decl.body st.frames.length
            { st with frames := st.frames ++
                [⟨(f.decl.params.map (·.lexeme)).zip args, some f.closure⟩] } = (r, s') →
        ((f.isInitializer = true → (r = .ok () ∨ ∃ v, r = .error (.funcReturn v)) →
            functionCall (fuel + 1) f args st = (getAt 0 s'.frames f.closure "this", s'))
         ∧ (f.isInitializer = false →
            (r = .ok () → functionCall (fuel + 1) f args st = (.ok .nil, s'))
            ∧ (∀ v, r = .error (.funcReturn v) →
                functionCall (fuel + 1) f args st = (.ok v, s'))))) := by
  constructor
  · refine ⟨rfl, ?_⟩
    show getAt 0 (st.frames ++ [⟨[("this", .inst instId)], some f.closure⟩])
        st.frames.length "this" = .ok (.inst instId)
    unfold getAt findAncestor
    dsimp only
    rw [List.getElem?_concat_length]
    rfl
  · intro r s' h
    constructor
    · intro hinit hr
      unfold functionCall
      dsimp only
      rw [h]
      rcases hr with hok | ⟨v, hv⟩
      · subst hok
        dsimp only
        rw [hinit]
        rfl
      · subst hv
        dsimp only
        rw [hinit]
        rfl
    · intro hinit
      constructor
      · intro hok
        subst hok
        unfold functionCall
        dsimp only
        rw [h]
        dsimp only
        rw [hinit]
        rfl
      · intro v hv
        subst hv
        unfold functionCall
        dsimp only
        rw [h]
        dsimp only
        rw [hinit]
        rfl

/-- C8, witness: a bound `init() { return; }` called on instance 0
returns that instance. -/
theorem function_call_initializer_protocol_witness :
    functionCall 50 ⟨initDecl, 1, true⟩ [] stBound = (.ok (.inst 0), stAfterInit) := by
  have h := ((function_call_initializer_protocol 49 ⟨initDecl, 1, true⟩ [] stBound 0).2
      (.error (.funcReturn .nil)) stAfterInit rfl).1 rfl (Or.inr ⟨.nil, rfl⟩)
  exact h.trans (by rfl)

/-- C10: the claim says the resolver appends `A variable is never used`
on scope exit and that the host then sets the static-error flag and
skips evaluation.  The first conjunct proves the resolver half in
general (`_end_scope` appends the diagnostic for every binding of the
popped scope that was never referenced), and the third proves it on the
program `{ var x = 1; }` (whose parse the second conjunct pins): run
directly, the resolver reports exactly that diagnostic.  But the host
half is unreachable: `Lox.run` iterates `parser.errors`, an attribute
the `Parser` class never defines, so every host run raises
`AttributeError` right after parsing — before the `Resolver` is even
constructed — and the gating code the claim describes (present in
`lox.py` directly below that line) is dead; the fourth conjunct shows
the host run crashing on this very program. -/
theorem unused_variable_is_static_error :
    (∀ (rs : RState) (scope : List (String × VarInScope))
        (rest : List (List (String × VarInScope))),
      rs.scopes = scope :: rest →
      (endScope rs).errors = rs.errors ++
        (scope.filter (fun p => !p.2.hasRefs)).map
          (fun p => (p.2.token, "A variable is never used")))
    ∧ ((parseProgram 50 unusedToks).1 = unusedStmts
      ∧ (parseProgram 50 unusedToks).2.errors = [])
    ∧ resolverRun 50 (unusedStmts.filterMap id) = .ok unusedRS
    ∧ loxRun 50 unusedToks initSt false
        = .error "AttributeError: 'Parser' object has no attribute 'errors'" := by
  refine ⟨?_, ⟨rfl, rfl⟩, rfl, rfl⟩
  intro rs scope rest hs
  unfold endScope
  rw [hs]

/-- C10, witness: `_end_scope` at a concrete scope holding one defined,
never-referenced binding appends exactly the unused-variable
diagnostic. -/
theorem unused_variable_is_static_error_witness :
    (endScope ⟨[[("x", ⟨tkX, true, false⟩)]], [], [], .NONE⟩).errors
      = [(tkX, "A variable is never used")] :=
  unused_variable_is_static_error.1 ⟨[[("x", ⟨tkX, true, false⟩)]], [], [], .NONE⟩
    [("x", ⟨tkX, true, false⟩)] [] rfl

end Loxxx
